import Mathlib

/-!
Verification of the n8n-openapi-node property-generation library.

This file embeds the core of the repository in Lean 4:
`ReferenceResolver` (src/openapi/reference-resolver.ts),
`SchemaExampleBuilder`/`SchemaExample` (src/openapi/schema-example.ts),
`PropertyMapper` (schema-to-properties), the default
`OperationParser`/`ResourceParser`, `ResourceOptionsMap`,
`ResourceCollector` and `BaseOperationCollector` (resource-collector.ts),
the walker `OpenApiParser.ParsePaths` tag-defaulting step, and
`FormatPathWithParameters`.

Conventions of the embedding:
* JavaScript objects with a fixed key set become Lean structures or
  single-constructor inductives whose fields are `Option`s; a JS key that
  is absent (or present with value `undefined`, which the source always
  guards with `!== undefined` or truthiness checks) is `none`.
* JS exceptions become an error result; JS unbounded recursion is made
  total with an explicit fuel parameter, `fuelOut` marking that the
  recursion of the source would not have returned within that depth
  (for all fuel values `fuelOut` means genuine non-termination).
* Mutation of collector state becomes explicit state passing; a thrown
  exception carries the state as mutated up to the throw site, exactly
  as the JS heap would be.
* The embedded documents carry reusable schemas under
  `components.schemas` only, which is the only pointer shape the
  repository's own tests exercise; `FindRef` on any other pointer shape
  fails with the source's "Schema not found" error, matching the
  source's behaviour of walking an absent segment.
-/

/-- JSON-like runtime values (for schema `example` / `default` payloads and
generated field defaults). An `obj` field whose value is `none` models a JS
object key that is present but set to `undefined` (the example builder
produces exactly that for properties with no derivable example). -/
inductive Json where
  | null : Json
  | bool (b : Bool) : Json
  | num (n : Int) : Json
  | str (s : String) : Json
  | arr (elems : List Json) : Json
  | obj (fields : List (String × Option Json)) : Json

/-- OpenAPI schema objects (openapi-types `SchemaObject`/`ReferenceObject`),
restricted to the keys the repository reads. `exampleValue` embeds the JS
`example` key (`example` is a Lean keyword). `enum` entries are strings, the
only enum payload the mapper's `lodash.startCase(value)` call is typed for.
`required` is the object-schema required-property list. -/
inductive Schema where
  | mk (ref : Option String) (oneOf : Option (List Schema)) (anyOf : Option (List Schema))
      (allOf : Option (List Schema)) (properties : Option (List (String × Schema)))
      (items : Option Schema) (type : Option String) (enum : Option (List String))
      (exampleValue : Option Json) (default : Option Json) (description : Option String)
      (required : Option (List String)) : Schema

def Schema.ref : Schema → Option String
  | .mk r _ _ _ _ _ _ _ _ _ _ _ => r

def Schema.oneOf : Schema → Option (List Schema)
  | .mk _ o _ _ _ _ _ _ _ _ _ _ => o

def Schema.anyOf : Schema → Option (List Schema)
  | .mk _ _ a _ _ _ _ _ _ _ _ _ => a

def Schema.allOf : Schema → Option (List Schema)
  | .mk _ _ _ a _ _ _ _ _ _ _ _ => a

def Schema.properties : Schema → Option (List (String × Schema))
  | .mk _ _ _ _ p _ _ _ _ _ _ _ => p

def Schema.items : Schema → Option Schema
  | .mk _ _ _ _ _ i _ _ _ _ _ _ => i

def Schema.type : Schema → Option String
  | .mk _ _ _ _ _ _ t _ _ _ _ _ => t

def Schema.enum : Schema → Option (List String)
  | .mk _ _ _ _ _ _ _ e _ _ _ _ => e

def Schema.exampleValue : Schema → Option Json
  | .mk _ _ _ _ _ _ _ _ e _ _ _ => e

def Schema.default : Schema → Option Json
  | .mk _ _ _ _ _ _ _ _ _ d _ _ => d

def Schema.description : Schema → Option String
  | .mk _ _ _ _ _ _ _ _ _ _ d _ => d

def Schema.required : Schema → Option (List String)
  | .mk _ _ _ _ _ _ _ _ _ _ _ r => r

/-- The schema with no keys at all (JS `{}` as a schema object). -/
def emptySchema : Schema :=
  .mk none none none none none none none none none none none none

/-- A bare reference object `{ $ref: r }`. -/
def refSchema (r : String) : Schema :=
  .mk (some r) none none none none none none none none none none none

/-- A schema carrying only a `type` key. -/
def typeSchema (t : String) : Schema :=
  .mk none none none none none none (some t) none none none none none

/-- A schema carrying only inline `properties`. -/
def objSchema (props : List (String × Schema)) : Schema :=
  .mk none none none none (some props) none none none none none none none

/-- A schema carrying only `allOf`. -/
def allOfSchema (members : List Schema) : Schema :=
  .mk none none none (some members) none none none none none none none none

/-- `Object.assign(target, source)` restricted to schema objects: every
key present on the source overwrites the target's, keys absent from the
source are kept from the target. -/
def assignSchema (t s : Schema) : Schema :=
  .mk (s.ref <|> t.ref) (s.oneOf <|> t.oneOf) (s.anyOf <|> t.anyOf)
    (s.allOf <|> t.allOf) (s.properties <|> t.properties) (s.items <|> t.items)
    (s.type <|> t.type) (s.enum <|> t.enum) (s.exampleValue <|> t.exampleValue)
    (s.default <|> t.default) (s.description <|> t.description) (s.required <|> t.required)

/-- Result of embedded computations: `ok`, a thrown JS error carrying its
message, or fuel exhaustion (the marker for non-termination of the
unbounded source recursion at the given depth). -/
inductive RRes (α : Type) where
  | ok (a : α) : RRes α
  | err (msg : String) : RRes α
  | fuelOut : RRes α

def RRes.bind : RRes α → (α → RRes β) → RRes β
  | .ok a, f => f a
  | .err m, _ => .err m
  | .fuelOut, _ => .fuelOut

instance : Monad RRes where
  pure := .ok
  bind := RRes.bind

def RRes.isOk : RRes α → Bool
  | .ok _ => true
  | _ => false

/-- Assoc-list lookup preserving the JS `Map`/object key order elsewhere. -/
def lookupStr (l : List (String × α)) (k : String) : Option α :=
  match l with
  | [] => none
  | (k', v) :: rest => if k' = k then some v else lookupStr rest k

/-- The OpenAPI document, restricted to the parts the repository reads:
`paths` (pattern to method/operation list), `components.schemas`, and the
root `tags` declarations (name, description). Operations are embedded
below, schemas here. -/
structure ApiComponents where
  schemas : List (String × Schema)

/-- `ref.split("/")` on the character list (structural recursion; the
separator is the single character `/`). -/
def splitOnSlashGo : List Char → List Char → List String
  | [], acc => [String.mk acc.reverse]
  | c :: rest, acc =>
    if c = '/' then String.mk acc.reverse :: splitOnSlashGo rest []
    else splitOnSlashGo rest (c :: acc)

def splitOnSlash (s : String) : List String :=
  splitOnSlashGo s.data []

/-- Splits a `$ref` pointer on `/` exactly as `ref.split("/").slice(1)`
does and walks the document: the embedded documents hold reusable schemas
under `components/schemas` only, so any other segment sequence walks into
an absent key and yields `none` (the source's falsy check). -/
def refTarget (components : ApiComponents) (ref : String) : Option Schema :=
  match (splitOnSlash ref).drop 1 with
  | ["components", "schemas", name] => lookupStr components.schemas name
  | _ => none

/-- `ReferenceResolver.FindRef`: walks the pointer, fails with the
source's "Schema not found" error when a segment is missing, and chases a
target that is itself a `$ref` recursively. The source recursion is
unguarded; the fuel makes it total, `fuelOut` for all fuel = divergence. -/
def ReferenceResolver.FindRef (components : ApiComponents) (ref : String) : Nat → RRes Schema
  | 0 => .fuelOut
  | fuel + 1 =>
    match refTarget components ref with
    | none => .err ("Schema not found for ref " ++ ref)
    | some s =>
      match s.ref with
      | some r2 => ReferenceResolver.FindRef components r2 fuel
      | none => .ok s

/-- Reference chains as produced by the source: `lodash.flatten` keeps the
`undefined` entries contributed by members that resolved without a chain,
so a chain element is an `Option String`. -/
abbrev RefChain := List (Option String)

/-- One level of `lodash.flatten` over the per-member chains of an `allOf`:
array entries are spread, an `undefined` entry is kept as-is. -/
def flattenChains (chains : List (Option RefChain)) : RefChain :=
  match chains with
  | [] => []
  | none :: rest => none :: flattenChains rest
  | some c :: rest => c ++ flattenChains rest

mutual

/-- `ReferenceResolver.ResolveRef`, checked in the source's order:
inline `properties` returned as-is; `oneOf` and then `anyOf` replace the
schema by their first alternative (an empty alternative list makes the
source dereference `undefined` and throw, embedded as a TypeError);
`allOf` resolves every member and shallow-merges the member objects with
`Object.assign({}, ...schemas)`; `$ref` merges the `FindRef` target over
the rest of the object; otherwise the schema is returned unchanged. -/
def ReferenceResolver.ResolveRef (components : ApiComponents) (s : Schema) :
    Nat → RRes (Schema × Option RefChain)
  | 0 => .fuelOut
  | fuel + 1 =>
    if (Schema.properties s).isSome then .ok (s, none)
    else
      match Schema.oneOf s with
      | some [] => .err "TypeError"
      | some (m :: _) => ReferenceResolver.resolveAfterOneOf components m fuel
      | none => ReferenceResolver.resolveAfterOneOf components s fuel

/-- Continuation of `ResolveRef` after the `oneOf` step (the source keeps
reassigning the local `schema` variable and re-checking). -/
def ReferenceResolver.resolveAfterOneOf (components : ApiComponents) (s : Schema) :
    Nat → RRes (Schema × Option RefChain)
  | 0 => .fuelOut
  | fuel + 1 =>
    match Schema.anyOf s with
    | some [] => .err "TypeError"
    | some (m :: _) => ReferenceResolver.resolveAfterAnyOf components m fuel
    | none => ReferenceResolver.resolveAfterAnyOf components s fuel

/-- Continuation of `ResolveRef` after the `anyOf` step: the `allOf` and
`$ref` branches and the default fall-through. -/
def ReferenceResolver.resolveAfterAnyOf (components : ApiComponents) (s : Schema) :
    Nat → RRes (Schema × Option RefChain)
  | 0 => .fuelOut
  | fuel + 1 =>
    match Schema.allOf s with
    | some members =>
      match ReferenceResolver.resolveMembers components members fuel with
      | .ok results =>
        .ok (results.foldl (fun acc r => assignSchema acc r.1) emptySchema,
          some (flattenChains (results.map (fun r => r.2))))
      | .err m => .err m
      | .fuelOut => .fuelOut
    | none =>
      match Schema.ref s with
      | some r =>
        match ReferenceResolver.FindRef components r fuel with
        | .ok target =>
          let rest := Schema.mk none (Schema.oneOf s) (Schema.anyOf s) (Schema.allOf s)
            (Schema.properties s) (Schema.items s) (Schema.type s) (Schema.enum s)
            (Schema.exampleValue s) (Schema.default s) (Schema.description s)
            (Schema.required s)
          .ok (assignSchema rest target, some [some r])
        | .err m => .err m
        | .fuelOut => .fuelOut
      | none => .ok (s, none)

/-- `schema.allOf.map((s) => this.ResolveRef(s))`: the members are
resolved left to right, and the first thrown error propagates. -/
def ReferenceResolver.resolveMembers (components : ApiComponents) (members : List Schema) :
    Nat → RRes (List (Schema × Option RefChain))
  | 0 => .fuelOut
  | fuel + 1 =>
    match members with
    | [] => .ok []
    | m :: rest => do
      let r ← ReferenceResolver.ResolveRef components m fuel
      let rs ← ReferenceResolver.resolveMembers components rest fuel
      pure (r :: rs)

end

/-- `ReferenceResolver.Resolve`: first component of `ResolveRef`. -/
def ReferenceResolver.Resolve (components : ApiComponents) (s : Schema) (fuel : Nat) :
    RRes Schema := do
  let r ← ReferenceResolver.ResolveRef components s fuel
  pure r.1

/-- Set a key on a JS object: an existing key keeps its position and gets
the new value, a new key is appended (JS property insertion order). -/
def setObjKey (fields : List (String × Option Json)) (k : String) (v : Option Json) :
    List (String × Option Json) :=
  match fields with
  | [] => [(k, v)]
  | (k', v') :: rest =>
    if k' = k then (k', v) :: rest else (k', v') :: setObjKey rest k v

/-- Enumerate a string's characters as JS index/value own properties. -/
def strIndexFields (cs : List Char) (start : Nat) : List (String × Option Json) :=
  match cs with
  | [] => []
  | c :: rest => (toString start, some (Json.str (String.mk [c]))) :: strIndexFields rest (start + 1)

/-- Enumerate an array's elements as JS index/value own properties. -/
def arrIndexFields (xs : List Json) (start : Nat) : List (String × Option Json) :=
  match xs with
  | [] => []
  | x :: rest => (toString start, some x) :: arrIndexFields rest (start + 1)

/-- `Object.assign(acc, v)` for one source value `v` of arbitrary runtime
type: objects contribute their keys (later wins, position kept), strings
and arrays contribute their indexed elements, `undefined`, `null` and
other primitives contribute nothing. -/
def jsAssignValue (acc : List (String × Option Json)) (v : Option Json) :
    List (String × Option Json) :=
  match v with
  | some (.obj fs) => fs.foldl (fun a kv => setObjKey a kv.1 kv.2) acc
  | some (.str s) => (strIndexFields s.data 0).foldl (fun a kv => setObjKey a kv.1 kv.2) acc
  | some (.arr xs) => (arrIndexFields xs 0).foldl (fun a kv => setObjKey a kv.1 kv.2) acc
  | _ => acc

/-- The cycle-guard loop of `SchemaExampleBuilder.build`: walk the chain,
return a hit on the first pointer already visited (pointers added so far
stay added), otherwise add each pointer to the visited set. -/
def checkVisited (refs : RefChain) (visited : RefChain) : Bool × RefChain :=
  match refs with
  | [] => (false, visited)
  | r :: rest =>
    if r ∈ visited then (true, visited) else checkVisited rest (visited ++ [r])

mutual

/-- `SchemaExampleBuilder.build`: resolve, guard on the reference chain
(returning `{}` and leaving the shared visited set as already grown on a
repeat), then in the source's order: `oneOf` first alternative, `allOf`
merged member examples, explicit `example`, explicit `default`,
`properties` recursion, `items` recursion, else `undefined`. The visited
set is the builder instance's mutable field, threaded through every
recursive call and never cleared. -/
def SchemaExampleBuilder.build (components : ApiComponents) (s : Schema) (visited : RefChain) :
    Nat → RRes (Option Json × RefChain)
  | 0 => .fuelOut
  | fuel + 1 =>
    match ReferenceResolver.ResolveRef components s fuel with
    | .err m => .err m
    | .fuelOut => .fuelOut
    | .ok (rs, chain) =>
      let guarded := match chain with
        | some refs => checkVisited refs visited
        | none => (false, visited)
      if guarded.1 then .ok (some (.obj []), guarded.2)
      else SchemaExampleBuilder.buildResolved components rs guarded.2 fuel

/-- The post-guard branch cascade of `build`, on the resolved schema. -/
def SchemaExampleBuilder.buildResolved (components : ApiComponents) (rs : Schema)
    (visited : RefChain) : Nat → RRes (Option Json × RefChain)
  | 0 => .fuelOut
  | fuel + 1 =>
    match Schema.oneOf rs with
    | some alts =>
      match alts with
      | [] => .err "TypeError"
      | m :: _ => SchemaExampleBuilder.build components m visited fuel
    | none =>
      match Schema.allOf rs with
      | some members =>
        match SchemaExampleBuilder.buildAllOf components members visited fuel with
        | .ok (examples, v') =>
          .ok (some (.obj (examples.foldl jsAssignValue [])), v')
        | .err m => .err m
        | .fuelOut => .fuelOut
      | none =>
        match Schema.exampleValue rs with
        | some e => .ok (some e, visited)
        | none =>
          match Schema.default rs with
          | some d => .ok (some d, visited)
          | none =>
            match Schema.properties rs with
            | some props =>
              match SchemaExampleBuilder.buildProps components props visited fuel with
              | .ok (fields, v') => .ok (some (.obj fields), v')
              | .err m => .err m
              | .fuelOut => .fuelOut
            | none =>
              match Schema.items rs with
              | some inner => SchemaExampleBuilder.build components inner visited fuel
              | none => .ok (none, visited)

/-- `schema.allOf?.map((s) => this.build(s))`: member examples left to
right through the shared visited set. -/
def SchemaExampleBuilder.buildAllOf (components : ApiComponents) (members : List Schema)
    (visited : RefChain) : Nat → RRes (List (Option Json) × RefChain)
  | 0 => .fuelOut
  | fuel + 1 =>
    match members with
    | [] => .ok ([], visited)
    | m :: rest =>
      match SchemaExampleBuilder.build components m visited fuel with
      | .ok (e, v') =>
        match SchemaExampleBuilder.buildAllOf components rest v' fuel with
        | .ok (es, v'') => .ok (e :: es, v'')
        | .err msg => .err msg
        | .fuelOut => .fuelOut
      | .err msg => .err msg
      | .fuelOut => .fuelOut

/-- The `for key in schema.properties` loop of `build`: one entry per
declared property in declaration order, `undefined` results kept as JS
keys set to `undefined`. -/
def SchemaExampleBuilder.buildProps (components : ApiComponents)
    (props : List (String × Schema)) (visited : RefChain) :
    Nat → RRes (List (String × Option Json) × RefChain)
  | 0 => .fuelOut
  | fuel + 1 =>
    match props with
    | [] => .ok ([], visited)
    | (k, p) :: rest =>
      match SchemaExampleBuilder.build components p visited fuel with
      | .ok (e, v') =>
        match SchemaExampleBuilder.buildProps components rest v' fuel with
        | .ok (fields, v'') => .ok ((k, e) :: fields, v'')
        | .err msg => .err msg
        | .fuelOut => .fuelOut
      | .err msg => .err msg
      | .fuelOut => .fuelOut

end

/-- `SchemaExample.extractExample`: a fresh builder (fresh, empty visited
set) per top-level call. -/
def SchemaExample.extractExample (components : ApiComponents) (s : Schema) (fuel : Nat) :
    RRes (Option Json) := do
  let r ← SchemaExampleBuilder.build components s [] fuel
  pure r.1

/-! ### String utilities modelling the lodash / JS runtime helpers -/

/-- Maximal alphanumeric runs of a character list (split on every
non-alphanumeric character, which is dropped). -/
def splitRuns (cs : List Char) (acc : List Char) : List (List Char) :=
  match cs with
  | [] => if acc.isEmpty then [] else [acc.reverse]
  | c :: rest =>
    if c.isAlpha || c.isDigit then splitRuns rest (c :: acc)
    else if acc.isEmpty then splitRuns rest [] else acc.reverse :: splitRuns rest []

/-- Splits one alphanumeric run at the word boundaries `lodash.words`
recognises for ASCII input: lower-to-upper, letter-to-digit,
digit-to-letter, and before the last upper of an upper run followed by a
lower ("ABCDef" gives "ABC", "Def"). `acc` is the current word reversed. -/
def splitCamelGo (acc : List Char) : List Char → List (List Char)
  | [] => [acc.reverse]
  | c :: rest =>
    match acc with
    | [] => splitCamelGo [c] rest
    | p :: _ =>
      let boundary :=
        (p.isLower && c.isUpper) ||
        (p.isAlpha && c.isDigit) ||
        (p.isDigit && c.isAlpha) ||
        (p.isUpper && c.isUpper && (match rest with | n :: _ => n.isLower | [] => false))
      if boundary then acc.reverse :: splitCamelGo [c] rest
      else splitCamelGo (c :: acc) rest

/-- `lodash.words` on ASCII input (the domain of every name this
repository feeds it). -/
def lodashWords (s : String) : List (List Char) :=
  (splitRuns s.data []).flatMap (fun run => splitCamelGo [] run)

/-- `lodash.upperFirst` on a word: first character upper-cased, the rest
untouched. -/
def upperFirstWord : List Char → List Char
  | [] => []
  | c :: rest => c.toUpper :: rest

/-- `lodash.startCase` (ASCII): split into words, upper-case each word's
first character, join with single spaces. -/
def startCase (s : String) : String :=
  String.intercalate " " ((lodashWords s).map (fun w => String.mk (upperFirstWord w)))

/-- Whether `pat` occurs at the head of the character list. -/
def leadsWith : List Char → List Char → Bool
  | [], _ => true
  | _ :: _, [] => false
  | p :: ps, c :: cs => p = c && leadsWith ps cs

/-- Whether `pat` occurs anywhere in the character list. -/
def containsSeq (pat : List Char) : List Char → Bool
  | [] => leadsWith pat []
  | c :: cs => leadsWith pat (c :: cs) || containsSeq pat cs

/-- JS string-contains test for the unanchored `application/json.*`
pattern: `pattern.test(key)` succeeds exactly when the key contains
"application/json" as a substring. -/
def strContains (s pat : String) : Bool :=
  containsSeq pat.data s.data

/-- `name.replace(/\./g, "-")`. -/
def strReplaceDots (s : String) : String :=
  String.mk (s.data.map (fun c => if c = '.' then '-' else c))

/-- The default operation parser's value sanitisation
`name.replace(/[^a-zA-Z0-9 ]/g, "-")`. -/
def sanitizeOperationValue (s : String) : String :=
  String.mk (s.data.map (fun c => if c.isAlpha || c.isDigit || c = ' ' then c else '-'))

/-- JS `toUpperCase` on the ASCII domain of embedded method names. -/
def toUpperStr (s : String) : String :=
  String.mk (s.data.map Char.toUpper)

/-- JS `trim` on the space-trimmed ASCII domain of embedded tag names. -/
def trimChars (s : String) : String :=
  String.mk (((s.data.dropWhile (fun c => c = ' ')).reverse.dropWhile (fun c => c = ' ')).reverse)

def hexDigitChar (n : Nat) : Char :=
  if n < 10 then Char.ofNat (48 + n) else Char.ofNat (55 + n)

/-- UTF-8 bytes of a code point. -/
def utf8Bytes (n : Nat) : List Nat :=
  if n < 128 then [n]
  else if n < 2048 then [192 + n / 64, 128 + n % 64]
  else if n < 65536 then [224 + n / 4096, 128 + (n / 64) % 64, 128 + n % 64]
  else [240 + n / 262144, 128 + (n / 4096) % 64, 128 + (n / 64) % 64, 128 + n % 64]

/-- JS `encodeURIComponent`: alphanumerics and `-_.!~*'()` kept, every
other character percent-encoded byte-wise (upper-case hex). -/
def encodeURIComponent (s : String) : String :=
  String.join (s.data.map (fun c =>
    if c.isAlpha || c.isDigit || c.toNat ∈ [45, 95, 46, 33, 126, 42, 39, 40, 41] then
      String.mk [c]
    else
      String.join ((utf8Bytes c.toNat).map (fun b =>
        String.mk ['%', hexDigitChar (b / 16), hexDigitChar (b % 16)]))))

def jsonQuoteChar (c : Char) : String :=
  if c = '"' then "\\\""
  else if c = '\\' then "\\\\"
  else if c = '\n' then "\\n"
  else String.mk [c]

/-- A JSON string literal as `JSON.stringify` renders it. -/
def jsonQuote (s : String) : String :=
  "\"" ++ String.join (s.data.map jsonQuoteChar) ++ "\""

def indentStr (depth : Nat) : String :=
  String.mk (List.replicate (2 * depth) ' ')

mutual

/-- `JSON.stringify(value, null, 2)`: two-space indented rendering;
object keys whose value is `undefined` are omitted. `depth` is the
nesting level of the rendered value. -/
def stringifyJson : Json → Nat → String
  | .null, _ => "null"
  | .bool true, _ => "true"
  | .bool false, _ => "false"
  | .num n, _ => toString n
  | .str s, _ => jsonQuote s
  | .arr xs, depth =>
    let members := stringifyElems xs (depth + 1)
    if members.isEmpty then "[]"
    else "[\n" ++ String.intercalate ",\n" members ++ "\n" ++ indentStr depth ++ "]"
  | .obj fs, depth =>
    let members := stringifyMembers fs (depth + 1)
    if members.isEmpty then "\x7b\x7d"
    else "\x7b\n" ++ String.intercalate ",\n" members ++ "\n" ++ indentStr depth ++ "\x7d"

def stringifyElems : List Json → Nat → List String
  | [], _ => []
  | x :: rest, depth => (indentStr depth ++ stringifyJson x depth) :: stringifyElems rest depth

def stringifyMembers : List (String × Option Json) → Nat → List String
  | [], _ => []
  | (_, none) :: rest, depth => stringifyMembers rest depth
  | (k, some v) :: rest, depth =>
    (indentStr depth ++ jsonQuote k ++ ": " ++ stringifyJson v depth) :: stringifyMembers rest depth

end

/-! ### n8n node-property model -/

/-- A `displayOptions.show` condition: the resource values and, on
operation-scoped fields, the operation entries the field is shown for. -/
structure ShowCondition where
  resource : List String
  operation : Option (List String)
deriving DecidableEq

/-- The routing shapes this repository emits: query/body `send` rules,
header and whole-body `request` rules, and the operation option's
method/url `request` rule. -/
inductive Routing where
  | send (typ property value : String) (propertyInDotNotation : Bool) : Routing
  | requestHeaders (header value : String) : Routing
  | requestBody (value : String) : Routing
  | request (method url : String) : Routing
deriving DecidableEq

/-- A selector option (resource options carry name/value/description,
operation options additionally action and routing, enum options just
name/value). -/
structure OptionItem where
  name : String
  value : String
  action : Option String
  description : Option String
  routing : Option Routing
deriving DecidableEq

/-- `INodeProperties` restricted to the keys this repository writes; a
missing key is `none`. -/
structure NodeProperty where
  displayName : Option String
  name : Option String
  type : Option String
  default : Option Json
  description : Option String
  required : Option Bool
  options : Option (List OptionItem)
  routing : Option Routing
  displayOptions : Option ShowCondition
  noDataExpression : Option Bool
  typeOptions : Option String

def emptyNodeProperty : NodeProperty :=
  { displayName := none, name := none, type := none, default := none, description := none,
    required := none, options := none, routing := none, displayOptions := none,
    noDataExpression := none, typeOptions := none }

/-- Per-key first-defined-wins merge of two property bags
(`lodash.defaults` applied left to right). -/
def defaultsMerge (a b : NodeProperty) : NodeProperty :=
  { displayName := a.displayName <|> b.displayName, name := a.name <|> b.name,
    type := a.type <|> b.type, default := a.default <|> b.default,
    description := a.description <|> b.description, required := a.required <|> b.required,
    options := a.options <|> b.options, routing := a.routing <|> b.routing,
    displayOptions := a.displayOptions <|> b.displayOptions,
    noDataExpression := a.noDataExpression <|> b.noDataExpression,
    typeOptions := a.typeOptions <|> b.typeOptions }

/-- `MergeProperties(...sources)`: `lodash.defaults({}, ...sources)` (the
first source defining a key wins), then the `required` key is dropped
entirely when falsy. -/
def MergeProperties (sources : List NodeProperty) : NodeProperty :=
  let merged := sources.foldl defaultsMerge emptyNodeProperty
  if merged.required = some true then merged else { merged with required := none }

/-! ### PropertyMapper -/

/-- JS truthiness of an optional runtime value. -/
def jsTruthyJson : Option Json → Bool
  | none => false
  | some .null => false
  | some (.bool b) => b
  | some (.num n) => n != 0
  | some (.str s) => s != ""
  | some (.arr _) => true
  | some (.obj _) => true

/-- JS `x || d` for an optional string (absent and empty are falsy). -/
def jsOrString : Option String → String → String
  | none, d => d
  | some s, d => if s = "" then d else s

/-- The `SCHEMA_DEFAULTS` table (key absent for unknown types). -/
def SCHEMA_DEFAULTS : String → Option Json
  | "boolean" => some (.bool true)
  | "string" => some (.str "")
  | "object" => some (.str "\x7b\x7d")
  | "array" => some (.str "[]")
  | "number" => some (.num 0)
  | "integer" => some (.num 0)
  | _ => none

/-- The `PROPERTY_TYPE_MAPPING` table. -/
def PROPERTY_TYPE_MAPPING : String → Option String
  | "boolean" => some "boolean"
  | "string" => some "string"
  | "object" => some "json"
  | "array" => some "json"
  | "number" => some "number"
  | "integer" => some "number"
  | _ => none

/-- `PropertyMapper.GetDefaultValues`: the single-key record
`{ [schemaType]: SCHEMA_DEFAULTS[schemaType] }` as a lookup function. -/
def PropertyMapper.GetDefaultValues (rs : Schema) : String → Option Json := fun t =>
  let schemaType := jsOrString rs.type "string"
  if t = schemaType then SCHEMA_DEFAULTS schemaType else none

/-- `PropertyMapper.GetTypeMapping`. -/
def PropertyMapper.GetTypeMapping (schemaType : String) : String :=
  jsOrString (PROPERTY_TYPE_MAPPING schemaType) "string"

/-- `typeof defaultValue === "object"` stringification step of
`MapFromSchema` (JS `null` and arrays are objects too). -/
def stringifyIfObject : Option Json → Option Json
  | some (.obj fs) => some (.str (stringifyJson (.obj fs) 0))
  | some (.arr xs) => some (.str (stringifyJson (.arr xs) 0))
  | some .null => some (.str (stringifyJson .null 0))
  | v => v

/-- One option entry of the enum branch of `MapFromSchema`: label
`startCase`d, value the raw enum value. -/
def enumOption (e : String) : OptionItem :=
  { name := startCase e, value := e, action := none, description := none, routing := none }

/-- `PropertyMapper.MapFromSchema`: resolve, extract an example, pick the
UI type and default (example first, else the per-type structural
default, objects rendered as JSON text), then the enum override: type
"options", one option per enum value in order (label `startCase`d), and
`field.default || enum[0]` as the final default. -/
def PropertyMapper.MapFromSchema (components : ApiComponents) (s : Schema) (fuel : Nat) :
    RRes NodeProperty := do
  let rs ← ReferenceResolver.Resolve components s fuel
  let ex ← SchemaExample.extractExample components rs fuel
  let defaultValue :=
    match ex with
    | some e => some e
    | none => PropertyMapper.GetDefaultValues rs (jsOrString rs.type "string")
  let field : NodeProperty := { emptyNodeProperty with
    type := some (PropertyMapper.GetTypeMapping (jsOrString rs.type "string")),
    default := stringifyIfObject defaultValue,
    description := rs.description }
  match rs.enum with
  | some (v :: vs) =>
    pure { field with
      type := some "options",
      options := some ((v :: vs).map enumOption),
      default := if jsTruthyJson field.default then field.default else some (.str v) }
  | _ => pure field

/-- An OpenAPI parameter object, restricted to the keys
`MapFromParameter` reads. `location` embeds the JS `in` key (`in` is a
Lean keyword); `exampleValue` embeds `example`. `content` entries are the
media-type keyed `{ schema }` records (`IsContentObject` always holds for
them). Reference-object parameters are outside the embedded fragment: on
a plain parameter object none of the resolver's keys
(`properties`/`oneOf`/`anyOf`/`allOf`/`$ref`) exist, so the source's
`Resolve(parameter)` call returns it unchanged. -/
structure Param where
  name : Option String
  location : String
  required : Option Bool
  description : Option String
  exampleValue : Option Json
  schema : Option Schema
  content : Option (List (String × Schema))

/-- An OpenAPI request-body object (same `Resolve`-is-identity remark as
for `Param`). -/
structure RequestBody where
  content : Option (List (String × Schema))

/-- `FindMatchingKey(obj, /application\/json.*/)`: the first entry whose
key contains "application/json". -/
def FindMatchingKey (entries : List (String × α)) : Option α :=
  match entries.find? (fun kv => strContains kv.1 "application/json") with
  | some kv => some kv.2
  | none => none

/-- The routing value expression `={{ $value }}`. -/
def passthroughExpr : String := "=\x7b\x7b $value \x7d\x7d"

/-- The routing value expression `={{ JSON.parse($value) }}`. -/
def jsonParseExpr : String := "=\x7b\x7b JSON.parse($value) \x7d\x7d"

/-- `PropertyMapper.SetParameterRouting` combined with the trailing
`if (!field.required) delete field.required` of `MapFromParameter`:
query parameters get a query `send` rule, path parameters are forced
required, header parameters get a header `request` rule, anything else
throws "Unknown parameter location". -/
def PropertyMapper.SetParameterRouting (field : NodeProperty) (p : Param) (nm : String) :
    RRes NodeProperty :=
  match p.location with
  | "query" =>
    .ok { field with routing := some (.send "query" nm passthroughExpr false) }
  | "path" => .ok { field with required := some true }
  | "header" =>
    .ok { field with routing := some (.requestHeaders nm passthroughExpr) }
  | _ => .err ("Unknown parameter location " ++ p.location)

/-- `PropertyMapper.MapFromParameter`: require a (truthy) name, derive
the schema config from the inline schema or the first JSON content
entry, merge the parameter-level config over it with default-merge
semantics (first source wins per key), attach routing by location, and
drop a falsy `required`. -/
def PropertyMapper.MapFromParameter (components : ApiComponents) (p : Param) (fuel : Nat) :
    RRes NodeProperty := do
  match p.name with
  | none => .err "Parameter name is required"
  | some nm =>
    if nm = "" then .err "Parameter name is required"
    else do
      let schemaFieldConfig? ←
        match p.schema with
        | some sch => do
          let c ← PropertyMapper.MapFromSchema components sch fuel
          pure (some c)
        | none =>
          match p.content with
          | some entries =>
            match FindMatchingKey entries with
            | some contentSchema => do
              let c ← PropertyMapper.MapFromSchema components contentSchema fuel
              pure (some c)
            | none => pure (none : Option NodeProperty)
          | none => pure (none : Option NodeProperty)
      match schemaFieldConfig? with
      | none => .err ("Parameter schema or content not found for parameter " ++ nm)
      | some schemaFieldConfig =>
        let parameterFieldConfig : NodeProperty := { emptyNodeProperty with
          displayName := some (startCase nm),
          name := some (encodeURIComponent (strReplaceDots nm)),
          required := p.required,
          description := p.description,
          default := p.exampleValue }
        let field := MergeProperties [parameterFieldConfig, schemaFieldConfig]
        let field ← PropertyMapper.SetParameterRouting field p nm
        pure (if field.required = some true then field else { field with required := none })

/-- `PropertyMapper.MapFromParameters`: empty or absent lists map to no
fields, otherwise each parameter in order (the first error propagates). -/
def PropertyMapper.MapFromParameters (components : ApiComponents)
    (params : Option (List Param)) (fuel : Nat) : RRes (List NodeProperty) :=
  match params with
  | none => .ok []
  | some l => go l
where
  go : List Param → RRes (List NodeProperty)
    | [] => .ok []
    | p :: rest => do
      let f ← PropertyMapper.MapFromParameter components p fuel
      let fs ← go rest
      pure (f :: fs)

/-- `PropertyMapper.MapFromSchemaProperty`. -/
def PropertyMapper.MapFromSchemaProperty (components : ApiComponents) (nm : String)
    (property : Schema) (fuel : Nat) : RRes NodeProperty := do
  let schemaFieldConfig ← PropertyMapper.MapFromSchema components property fuel
  let parameterFieldConfig : NodeProperty := { emptyNodeProperty with
    displayName := some (startCase nm),
    name := some (strReplaceDots nm) }
  pure (MergeProperties [parameterFieldConfig, schemaFieldConfig])

/-- One body property of `MapFromRequestBody`'s `properties` loop. -/
def PropertyMapper.mapBodyProperty (components : ApiComponents) (schemaRequired : Option (List String))
    (key : String) (property : Schema) (fuel : Nat) : RRes NodeProperty := do
  let fieldPropertyKeys ← PropertyMapper.MapFromSchemaProperty components key property fuel
  let fieldDefaults : NodeProperty := { emptyNodeProperty with
    required := some (decide (key ∈ schemaRequired.getD [])) }
  let field := MergeProperties [fieldDefaults, fieldPropertyKeys]
  pure { field with
    routing := some (.send "body" key
      (if field.type = some "json" then jsonParseExpr else passthroughExpr) false) }

/-- `PropertyMapper.MapFromRequestBody`: absent body maps to no fields;
missing `content` makes the source dereference `undefined` (TypeError);
no JSON-matching content entry or an unsupported top-level schema type
throw; an array schema yields one whole-body "body" field; an object
schema yields one routed field per declared property. -/
def PropertyMapper.MapFromRequestBody (components : ApiComponents)
    (body : Option RequestBody) (fuel : Nat) : RRes (List NodeProperty) :=
  match body with
  | none => .ok []
  | some b =>
    match b.content with
    | none => .err "TypeError"
    | some entries =>
      match FindMatchingKey entries with
      | none => .err "No \x27application/json\x27 content found"
      | some requestBodySchema => do
        let schema ← ReferenceResolver.Resolve components requestBodySchema fuel
        if schema.properties.isNone && schema.type ≠ some "object" && schema.type ≠ some "array" then
          .err ("Request body schema type \x27" ++ jsOrString schema.type "unknown" ++ "\x27 not supported")
        else do
          let arrayFields ←
            match schema.type, schema.items with
            | some "array", some items => do
              let innerSchema ← ReferenceResolver.Resolve components items fuel
              let fieldPropertyKeys ← PropertyMapper.MapFromSchemaProperty components "body" innerSchema fuel
              let fieldDefaults : NodeProperty := { emptyNodeProperty with
                required := some schema.required.isSome }
              let field := MergeProperties [fieldDefaults, fieldPropertyKeys]
              pure [{ field with routing := some (.requestBody jsonParseExpr) }]
            | _, _ => pure ([] : List NodeProperty)
          let propFields ←
            match schema.properties with
            | some props => goProps schema.required props
            | none => pure ([] : List NodeProperty)
          pure (arrayFields ++ propFields)
where
  goProps (schemaRequired : Option (List String)) :
      List (String × Schema) → RRes (List NodeProperty)
    | [] => .ok []
    | (k, prop) :: rest => do
      let f ← PropertyMapper.mapBodyProperty components schemaRequired k prop fuel
      let fs ← goProps schemaRequired rest
      pure (f :: fs)

/-! ### Operations, parsers, walker -/

/-- An operation entry under a path item; `ref` set marks a bare
reference object in place of an operation (the walker skips those). -/
structure Operation where
  ref : Option String
  operationId : Option String
  tags : Option (List String)
  summary : Option String
  description : Option String
  deprecated : Option Bool
  parameters : Option (List Param)
  requestBody : Option RequestBody

/-- `IOperationContext` (the path-item member is never read by the
collectors and is omitted). -/
structure OperationContext where
  pattern : String
  method : String

/-- The pluggable `IOperationParser` capability interface. The
deprecated lowercase aliases of the source always delegate to these
canonical methods on the default parser, so the embedding keeps only the
canonical ones. -/
structure IOperationParser where
  GetName : Operation → OperationContext → String
  GetValue : Operation → OperationContext → String
  GetAction : Operation → OperationContext → String
  GetDescription : Operation → OperationContext → String
  ShouldSkip : Operation → OperationContext → Bool

/-- Default `OperationParser.GetName`: `startCase(operationId)` when the
operationId is truthy, else `"METHOD pattern"` upper-cased method. -/
def OperationParser.GetName (op : Operation) (ctx : OperationContext) : String :=
  match op.operationId with
  | some oid => if oid = "" then toUpperStr ctx.method ++ " " ++ ctx.pattern else startCase oid
  | none => toUpperStr ctx.method ++ " " ++ ctx.pattern

/-- Default `OperationParser.GetValue`: the name with every character
outside `[a-zA-Z0-9 ]` replaced by `-`. -/
def OperationParser.GetValue (op : Operation) (ctx : OperationContext) : String :=
  sanitizeOperationValue (OperationParser.GetName op ctx)

/-- Default `OperationParser.GetAction`. -/
def OperationParser.GetAction (op : Operation) (ctx : OperationContext) : String :=
  jsOrString op.summary (OperationParser.GetName op ctx)

/-- Default `OperationParser.GetDescription`. -/
def OperationParser.GetDescription (op : Operation) (_ctx : OperationContext) : String :=
  jsOrString op.description (jsOrString op.summary "")

/-- Default `OperationParser.ShouldSkip`: `!!operation.deprecated`. -/
def OperationParser.ShouldSkip (op : Operation) (_ctx : OperationContext) : Bool :=
  op.deprecated = some true

/-- The default operation parser bundled. -/
def defaultOperationParser : IOperationParser :=
  { GetName := OperationParser.GetName, GetValue := OperationParser.GetValue,
    GetAction := OperationParser.GetAction, GetDescription := OperationParser.GetDescription,
    ShouldSkip := OperationParser.ShouldSkip }

/-- A collected tag entry (the collector's `TagObject`): name and
description, both strings. -/
structure TagObject where
  name : String
  description : String
deriving DecidableEq

/-- The pluggable `IResourceParser` capability interface. `GetValue`
receives only the tag's name (the source types it
`Pick<TagObject, "name">` and the operation collector calls it with a
name-only record). -/
structure IResourceParser where
  GetName : TagObject → String
  GetValue : String → String
  GetDescription : TagObject → String

def isEmojiCodePoint (n : Nat) : Bool :=
  (0x1F600 ≤ n && n ≤ 0x1F64F) || (0x1F300 ≤ n && n ≤ 0x1F5FF) ||
  (0x1F680 ≤ n && n ≤ 0x1F6FF) || (0x1F1E0 ≤ n && n ≤ 0x1F1FF) ||
  (0x2600 ≤ n && n ≤ 0x26FF) || (0x2700 ≤ n && n ≤ 0x27BF) ||
  (0x1F900 ≤ n && n ≤ 0x1F9FF) || (0x1F018 ≤ n && n ≤ 0x1F270) ||
  n = 0x238C || n = 0x2022 || n = 0x2B50 || n = 0x2B55

/-- Default `ResourceParser.GetName`: `startCase(tag.name)`. -/
def ResourceParser.GetName (tag : TagObject) : String :=
  startCase tag.name

/-- Default `ResourceParser.GetValue`: strip the emoji code-point
classes and variation selectors, trim, then `startCase`. -/
def ResourceParser.GetValue (name : String) : String :=
  startCase (trimChars (String.mk (name.data.filter (fun c =>
    !(isEmojiCodePoint c.toNat) && c.toNat ≠ 0xFE0F && c.toNat ≠ 0x200D))))

/-- Default `ResourceParser.GetDescription`: `tag.description || ""`. -/
def ResourceParser.GetDescription (tag : TagObject) : String :=
  tag.description

/-- The default resource parser bundled. -/
def defaultResourceParser : IResourceParser :=
  { GetName := ResourceParser.GetName, GetValue := ResourceParser.GetValue,
    GetDescription := ResourceParser.GetDescription }

/-- Assoc-list key update: an existing key keeps its position (JS `Map.set`
and object assignment), a new key is appended. -/
def setStr (l : List (String × α)) (k : String) (v : α) : List (String × α) :=
  match l with
  | [] => [(k, v)]
  | (k', v') :: rest => if k' = k then (k', v) :: rest else (k', v') :: setStr rest k v

/-! ### ResourceCollector -/

/-- The `ResourceCollector` instance state: the ordered tag map and the
declaration-order map (explicitly declared tags only). -/
structure ResourceCollectorState where
  tags : List (String × String)
  tagsOrder : List (String × Nat)
deriving DecidableEq

def emptyResourceCollector : ResourceCollectorState :=
  { tags := [], tagsOrder := [] }

/-- `ResourceCollector.addTagByName`: insert a placeholder entry (empty
description) only when absent. -/
def ResourceCollector.addTagByName (st : ResourceCollectorState) (tag : String) :
    ResourceCollectorState :=
  if (lookupStr st.tags tag).isSome then st
  else { st with tags := st.tags ++ [(tag, "")] }

/-- `ResourceCollector.visitOperation`: the operation's tags (the walker
has already defaulted absent tag lists), or the synthetic "Default" tag
when the list is empty. -/
def ResourceCollector.visitOperation (st : ResourceCollectorState) (op : Operation) :
    ResourceCollectorState :=
  match op.tags.getD [] with
  | [] => ResourceCollector.addTagByName st "Default"
  | t :: ts => (t :: ts).foldl ResourceCollector.addTagByName st

/-- `ResourceCollector.visitTag`: insert/overwrite the description
(`tag.description || ""`) and record the declaration order
(`tagsOrder.size` before the insertion). -/
def ResourceCollector.visitTag (st : ResourceCollectorState) (name : String)
    (description : Option String) : ResourceCollectorState :=
  { tags := setStr st.tags name (jsOrString description ""),
    tagsOrder := setStr st.tagsOrder name st.tagsOrder.length }

/-- The numeric sort key of the `sortedTags` comparator:
`tagsOrder.get(name) ?? 0`. -/
def tagOrderKey (st : ResourceCollectorState) (t : String × String) : Nat :=
  (lookupStr st.tagsOrder t.1).getD 0

/-- The comparator relation of `sortedTags`. -/
def tagOrderLe (st : ResourceCollectorState) (a b : String × String) : Prop :=
  tagOrderKey st a ≤ tagOrderKey st b

instance (st : ResourceCollectorState) : DecidableRel (tagOrderLe st) := fun a b =>
  inferInstanceAs (Decidable (tagOrderKey st a ≤ tagOrderKey st b))

instance (st : ResourceCollectorState) : IsTotal (String × String) (tagOrderLe st) :=
  ⟨fun a b => Nat.le_total (tagOrderKey st a) (tagOrderKey st b)⟩

instance (st : ResourceCollectorState) : IsTrans (String × String) (tagOrderLe st) :=
  ⟨fun _ _ _ h h' => Nat.le_trans h h'⟩

/-- Remove the first entry with the given name. -/
def eraseFirstNamed (l : List (String × String)) (nm : String) : List (String × String) :=
  match l with
  | [] => []
  | t :: rest => if t.1 = nm then rest else t :: eraseFirstNamed rest nm

/-- The "default"-last step of `sortedTags`: applied only when no tag
named "default" was explicitly declared, it moves the first collected
tag of that name to the end. -/
def moveDefaultToEnd (st : ResourceCollectorState) (sorted : List (String × String)) :
    List (String × String) :=
  if (lookupStr st.tagsOrder "default").isSome then sorted
  else
    match sorted.find? (fun t => t.1 = "default") with
    | none => sorted
    | some d => eraseFirstNamed sorted "default" ++ [d]

/-- `ResourceCollector.sortedTags`: stable sort of the collected tags by
declaration-order key (absent key sorts as 0); `Array.prototype.sort`
with a numeric comparator is a stable sort, and `List.insertionSort`
computes exactly the stable sort. Then the "default"-last step. -/
def ResourceCollector.sortedTags (st : ResourceCollectorState) : List (String × String) :=
  moveDefaultToEnd st (List.insertionSort (tagOrderLe st) st.tags)

/-- The `resources` getter: the "resource" options selector over the
sorted tags, each option through the resource parser. -/
def ResourceCollector.resources (parser : IResourceParser) (st : ResourceCollectorState) :
    NodeProperty :=
  { emptyNodeProperty with
    displayName := some "Resource", name := some "resource", type := some "options",
    noDataExpression := some true, default := some (.str ""),
    options := some ((ResourceCollector.sortedTags st).map (fun t =>
      { name := parser.GetName ⟨t.1, t.2⟩, value := parser.GetValue t.1, action := none,
        description := some (parser.GetDescription ⟨t.1, t.2⟩), routing := none })) }

/-! ### FormatPathWithParameters and the walker -/

/-- `uri.replace(/{([^}]*)}/g, ...)`: rewrites each brace-delimited
placeholder into the host's parameter-substitution syntax; a `{` with no
closing `}` is not matched and kept verbatim (the regex class `[^}]`
admits nested `{`). The scanner's second argument holds the reversed
placeholder body while inside braces. Brace characters are written by
code point to keep them out of literals. -/
def formatPathScan : List Char → Option (List Char) → String
  | [], none => ""
  | [], some acc => String.mk (Char.ofNat 123 :: acc.reverse)
  | c :: rest, none =>
    if c = Char.ofNat 123 then formatPathScan rest (some [])
    else String.mk [c] ++ formatPathScan rest none
  | c :: rest, some acc =>
    if c = Char.ofNat 125 then
      "\x7b\x7b$parameter[\"" ++ String.mk acc.reverse ++ "\"]\x7d\x7d" ++ formatPathScan rest none
    else formatPathScan rest (some (c :: acc))

/-- `FormatPathWithParameters`. -/
def FormatPathWithParameters (uri : String) : String :=
  formatPathScan uri.data none

/-- `Object.values(OpenAPIV3.HttpMethods)`. -/
def HTTP_METHODS : List String :=
  ["get", "put", "post", "delete", "options", "head", "patch", "trace"]

/-- The whole document: paths (pattern to method/operation entries in
declaration order), reusable component schemas, root tag declarations. -/
structure ApiDocument where
  paths : List (String × List (String × Operation))
  components : ApiComponents
  tags : Option (List (String × Option String))

/-- The in-place `operation.tags ??= ["default"]` assignment of
`OpenApiParser.ParsePaths`, applied to non-reference operations under
recognised HTTP-method keys. -/
def OpenApiParser.defaultOperationTags (httpMethod : String) (op : Operation) : Operation :=
  if HTTP_METHODS.contains httpMethod && op.ref.isNone then
    { op with tags := some (op.tags.getD ["default"]) }
  else op

/-- The effect of one `ParsePaths` traversal on the caller's document
(the visitor dispatch itself does not write to the document; this
captures every document write the walk performs). -/
def OpenApiParser.ParsePaths (doc : ApiDocument) : ApiDocument :=
  { doc with paths := doc.paths.map (fun pe =>
      (pe.1, pe.2.map (fun mo => (mo.1, OpenApiParser.defaultOperationTags mo.1 mo.2)))) }

/-- The effect of `PropertiesBuilder.Build` on the caller's document:
`Parse` runs once per collector, two traversals in total. -/
def PropertiesBuilder.BuildDocumentEffect (doc : ApiDocument) : ApiDocument :=
  OpenApiParser.ParsePaths (OpenApiParser.ParsePaths doc)

/-! ### BaseOperationCollector -/

/-- The `BaseOperationCollector` instance state: the accumulated output
fields and the `ResourceOptionsMap` (resource value to its ordered
operation options). -/
structure CollectorState where
  collectedFields : List NodeProperty
  resourceOptions : List (String × List OptionItem)

def emptyCollectorState : CollectorState :=
  { collectedFields := [], resourceOptions := [] }

/-- Visit outcome: normal return, a thrown error together with the state
as mutated up to the throw site, or fuel exhaustion. -/
inductive VRes where
  | ok (st : CollectorState) : VRes
  | thrown (st : CollectorState) (msg : String) : VRes
  | fuelOut : VRes

/-- `ResourceOptionsMap.add`: create the resource's list on first use,
reject a duplicate operation value within one resource, else append. -/
def ResourceOptionsMap.add (m : List (String × List OptionItem)) (resource : String)
    (opt : OptionItem) : Except String (List (String × List OptionItem)) :=
  let m' := if (lookupStr m resource).isSome then m else m ++ [(resource, [])]
  let resourceOptions := (lookupStr m' resource).getD []
  if resourceOptions.any (fun o => o.value = opt.value) then
    .error ("Duplicate operation \x27" ++ opt.value ++ "\x27 for resource \x27" ++ resource ++ "\x27")
  else .ok (setStr m' resource (resourceOptions ++ [opt]))

/-- `BaseOperationCollector.AddDisplayOption`: overwrite every field's
`displayOptions` with the (resource, operation) show condition. -/
def BaseOperationCollector.AddDisplayOption (fields : List NodeProperty)
    (resource operation : String) : List NodeProperty :=
  fields.map (fun f => { f with displayOptions := some ⟨[resource], some [operation]⟩ })

/-- The notice field substituted when request-body mapping throws. -/
def requestBodyNotice (ctx : OperationContext) : NodeProperty :=
  { emptyNodeProperty with
    displayName := some (toUpperStr ctx.method ++ " " ++ ctx.pattern ++ "<br/><br/>" ++
      "There\x27s no body available for request, kindly use HTTP Request node to send body"),
    name := some "operation", type := some "notice", default := some (.str "") }

/-- `BaseOperationCollector.ParseFields`: the parameter fields (errors
propagate), then the request-body fields with a local failure boundary
that substitutes a single notice field on a thrown error. -/
def BaseOperationCollector.ParseFields (components : ApiComponents) (op : Operation)
    (ctx : OperationContext) (fuel : Nat) : RRes (List NodeProperty) := do
  let parameterFields ← PropertyMapper.MapFromParameters components op.parameters fuel
  match PropertyMapper.MapFromRequestBody components op.requestBody fuel with
  | .ok bodyFields => pure (parameterFields ++ bodyFields)
  | .err _ => pure (parameterFields ++ [requestBodyNotice ctx])
  | .fuelOut => .fuelOut

/-- The selector option literal built by `ParseOperation`:
name/value/action/description through the operation parser, routing with
the method upper-cased and the url from `FormatPathWithParameters`. -/
def BaseOperationCollector.operationOption (parserO : IOperationParser) (op : Operation)
    (ctx : OperationContext) : OptionItem :=
  { name := parserO.GetName op ctx, value := parserO.GetValue op ctx,
    action := some (parserO.GetAction op ctx),
    description := some (parserO.GetDescription op ctx),
    routing := some (.request (toUpperStr ctx.method) ("=" ++ FormatPathWithParameters ctx.pattern)) }

/-- `BaseOperationCollector.ParseOperation`: the selector option and the
field list. -/
def BaseOperationCollector.ParseOperation (components : ApiComponents)
    (parserO : IOperationParser) (op : Operation) (ctx : OperationContext) (fuel : Nat) :
    RRes (OptionItem × List NodeProperty) := do
  let fields ← BaseOperationCollector.ParseFields components op ctx fuel
  pure (BaseOperationCollector.operationOption parserO op ctx, fields)

/-- The `for (const resourceName of resources)` loop of
`VisitOperationInternal`: per resource, deep-clone the fields (value
semantics make the clone a plain reuse), attach the display option with
the option's *name* as the operation component, register the option
(throw point for duplicates), then append the fields. -/
def BaseOperationCollector.registerResources (option : OptionItem)
    (operationFields : List NodeProperty) :
    List String → CollectorState → VRes
  | [], st => .ok st
  | r :: rest, st =>
    let fields := BaseOperationCollector.AddDisplayOption operationFields r option.name
    match ResourceOptionsMap.add st.resourceOptions r option with
    | .error msg => .thrown st msg
    | .ok m' =>
      BaseOperationCollector.registerResources option operationFields rest
        ⟨st.collectedFields ++ fields, m'⟩

/-- `BaseOperationCollector.VisitOperationInternal`: skip when the
parser says so, parse the operation, compute the target resource values
(tag values through the resource parser with falsy values filtered, or
the "Default" fallback), then register under every target resource. -/
def BaseOperationCollector.VisitOperationInternal (components : ApiComponents)
    (parserO : IOperationParser) (parserR : IResourceParser) (op : Operation)
    (ctx : OperationContext) (fuel : Nat) (st : CollectorState) : VRes :=
  if parserO.ShouldSkip op ctx then .ok st
  else
    match BaseOperationCollector.ParseOperation components parserO op ctx fuel with
    | .err msg => .thrown st msg
    | .fuelOut => .fuelOut
    | .ok (option, operationFields) =>
      let resources :=
        match op.tags with
        | some (t :: ts) =>
          ((t :: ts).map (fun tag => parserR.GetValue tag)).filter (fun v => v ≠ "")
        | _ =>
          [if parserR.GetValue "Default" = "" then "Default" else parserR.GetValue "Default"]
      BaseOperationCollector.registerResources option operationFields resources st

/-- `BaseOperationCollector.VisitOperation`: the per-operation failure
boundary; a thrown error is logged as a warning (the Bool records that a
warning was logged) and the walk continues with the state as mutated. -/
def BaseOperationCollector.VisitOperation (components : ApiComponents)
    (parserO : IOperationParser) (parserR : IResourceParser) (op : Operation)
    (ctx : OperationContext) (fuel : Nat) (st : CollectorState) :
    RRes (CollectorState × Bool) :=
  match BaseOperationCollector.VisitOperationInternal components parserO parserR op ctx fuel st with
  | .ok st' => .ok (st', false)
  | .thrown st' _ => .ok (st', true)
  | .fuelOut => .fuelOut

/-- The `operations` getter: fails hard when no resource accumulated any
option, else one "operation" options selector per resource scoped to
`show.resource = [resource]`. -/
def BaseOperationCollector.operations (st : CollectorState) :
    Except String (List NodeProperty) :=
  if st.resourceOptions.length = 0 then .error "No operations found in OpenAPI document"
  else .ok (st.resourceOptions.map (fun ro =>
    { emptyNodeProperty with
      displayName := some "Operation", name := some "operation", type := some "options",
      noDataExpression := some true, displayOptions := some ⟨[ro.1], none⟩,
      options := some ro.2, default := some (.str "") }))

/-! ### Concrete fixtures and result projections used by the verification -/

/-- A document with no reusable schemas. -/
def noSchemas : ApiComponents := ⟨[]⟩

/-- `allOf` member `{ properties: { a: {type string}, b: {type string} } }`. -/
def memberAB : Schema := objSchema [("a", typeSchema "string"), ("b", typeSchema "string")]

/-- `allOf` member `{ properties: { c: {type string} } }`. -/
def memberC : Schema := objSchema [("c", typeSchema "string")]

/-- Components with a pure `$ref` alias cycle:
`A = { $ref: #/components/schemas/B }`, `B = { $ref: #/components/schemas/A }`. -/
def cyclicComponents : ApiComponents :=
  ⟨[("A", refSchema "#/components/schemas/B"), ("B", refSchema "#/components/schemas/A")]⟩

/-- `{ type: "string", example: "hi" }`. -/
def hiSchema : Schema :=
  .mk none none none none none none (some "string") none (some (.str "hi")) none none none

/-- Components with one plain referenced schema `X`. -/
def sibComponents : ApiComponents := ⟨[("X", hiSchema)]⟩

/-- Two sibling properties referencing the same schema `X`. -/
def siblingSchema : Schema :=
  objSchema [("a", refSchema "#/components/schemas/X"), ("b", refSchema "#/components/schemas/X")]

/-- Components with a self cycle through a property:
`A = { properties: { self: { $ref: A }, name: { type string, example "hi" } } }`. -/
def selfRefComponents : ApiComponents :=
  ⟨[("A", objSchema [("self", refSchema "#/components/schemas/A"), ("name", hiSchema)])]⟩

/-- `{ type: "string", default: "sd" }`. -/
def schemaWithDefault : Schema :=
  .mk none none none none none none (some "string") none none (some (.str "sd")) none none

/-- A query parameter with its own `example` "px" and a schema whose
`default` is "sd". -/
def paramWithExample : Param :=
  { name := some "p", location := "query", required := none, description := none,
    exampleValue := some (.str "px"), schema := some schemaWithDefault, content := none }

/-- `{ type: "string", enum: ["a","b"], example: "" }` (falsy explicit
example). -/
def enumFalsySchema : Schema :=
  .mk none none none none none none (some "string") (some ["a", "b"]) (some (.str "")) none none none

/-- `{ type: "string", enum: ["type1","type2"] }`. -/
def enumPlainSchema : Schema :=
  .mk none none none none none none (some "string") (some ["type1", "type2"]) none none none none

/-- `{ type: "boolean" }`. -/
def boolSchema : Schema := typeSchema "boolean"

/-- The query parameter `all` with boolean schema and example `false`. -/
def allParam : Param :=
  { name := some "all", location := "query", required := some false, description := none,
    exampleValue := some (.bool false), schema := some boolSchema, content := none }

/-- A GET operation without an operationId, tagged "Pets", with one
query parameter. -/
def opQueryNoId : Operation :=
  { ref := none, operationId := none, tags := some ["Pets"], summary := none,
    description := none, deprecated := none, parameters := some [allParam], requestBody := none }

/-- Its context. -/
def ctxItems : OperationContext := { pattern := "/api/items", method := "get" }

/-- The same operation carrying the duplicated tag list ["A", "A"]. -/
def opDupTags : Operation := { opQueryNoId with tags := some ["A", "A"] }

/-- A parameter with no name (parameter mapping throws on it). -/
def namelessParam : Param :=
  { name := none, location := "query", required := none, description := none,
    exampleValue := none, schema := some boolSchema, content := none }

/-- An operation whose only parameter is nameless. -/
def opBadParam : Operation := { opQueryNoId with parameters := some [namelessParam] }

/-- A request body whose JSON content schema is `{ type: "string" }`
(unsupported top-level type). -/
def stringBody : RequestBody := { content := some [("application/json", typeSchema "string")] }

/-- The query-parameter operation with the unsupported string body. -/
def opStringBody : Operation := { opQueryNoId with requestBody := some stringBody }

/-- An operation tagged only "Z" (never declared at the root). -/
def opOnlyTagZ : Operation :=
  { ref := none, operationId := none, tags := some ["Z"], summary := none,
    description := none, deprecated := none, parameters := none, requestBody := none }

/-- An operation tagged "default". -/
def opTagDefault : Operation := { opOnlyTagZ with tags := some ["default"] }

/-- Collector state after visiting the "Z" operation and then the root
declarations of tags "A" and "B" (walker order: operations before
tags). -/
def resourceStateZAB : ResourceCollectorState :=
  ResourceCollector.visitTag
    (ResourceCollector.visitTag
      (ResourceCollector.visitOperation emptyResourceCollector opOnlyTagZ) "A" (some "da"))
    "B" (some "db")

/-- Collector state with an operation-inferred "default" tag, an
inferred "Z" tag and one declared tag "A". -/
def resourceStateWithDefault : ResourceCollectorState :=
  ResourceCollector.visitTag
    (ResourceCollector.visitOperation
      (ResourceCollector.visitOperation emptyResourceCollector opTagDefault) opOnlyTagZ)
    "A" (some "")

/-- A tag-less GET operation. -/
def opNoTags : Operation :=
  { ref := none, operationId := none, tags := none, summary := none,
    description := none, deprecated := none, parameters := none, requestBody := none }

/-- A document with one tag-less operation. -/
def docTagless : ApiDocument :=
  { paths := [("/a", [("get", opNoTags)])], components := noSchemas, tags := none }

/-- The same document with the tag list present. -/
def docTagged : ApiDocument :=
  { paths := [("/a", [("get", opOnlyTagZ)])], components := noSchemas, tags := none }

/-- Property keys of a resolution result (empty on failure). -/
def resolvedPropertyKeys (r : RRes (Schema × Option RefChain)) : List String :=
  match r with
  | .ok (s, _) => ((Schema.properties s).getD []).map Prod.fst
  | _ => []

/-- The mapped field's default, as a string (none when absent, an error
or not a string). -/
def rresDefaultString (r : RRes NodeProperty) : Option String :=
  match r with
  | .ok f =>
    match f.default with
    | some (.str s) => some s
    | _ => none
  | _ => none

/-- The mapped field's option list as (label, value) pairs. -/
def rresOptionPairs (r : RRes NodeProperty) : List (String × String) :=
  match r with
  | .ok f => (f.options.getD []).map (fun o => (o.name, o.value))
  | _ => []

/-- The operation-option values registered under a resource after an
(uncaught) visit. -/
def vresOptionValues (v : VRes) (resource : String) : List String :=
  match v with
  | .ok st => ((lookupStr st.resourceOptions resource).getD []).map (fun o => o.value)
  | _ => []

/-- The operation component of every collected field's show condition
after an (uncaught) visit. -/
def vresFieldOperationConds (v : VRes) : List (List String) :=
  match v with
  | .ok st => st.collectedFields.map (fun f =>
      match f.displayOptions with
      | some c => c.operation.getD []
      | none => [])
  | _ => []

/-- Whether the caught visit logged a warning. -/
def visitWarned (r : RRes (CollectorState × Bool)) : Bool :=
  match r with
  | .ok (_, w) => w
  | _ => false

/-- Collected-field count after a caught visit. -/
def visitFieldCount (r : RRes (CollectorState × Bool)) : Nat :=
  match r with
  | .ok (st, _) => st.collectedFields.length
  | _ => 0

/-- Registered-option count under a resource after a caught visit. -/
def visitOptionCount (r : RRes (CollectorState × Bool)) (resource : String) : Nat :=
  match r with
  | .ok (st, _) => ((lookupStr st.resourceOptions resource).getD []).length
  | _ => 0

/-- The tag list of the first operation of the first path. -/
def firstOperationTags (doc : ApiDocument) : Option (List String) :=
  match doc.paths with
  | (_, (_, op) :: _) :: _ => op.tags
  | _ => none

/-- Extract the ok fields of a field-list result ([] otherwise). -/
def rresFieldsOf (r : RRes (List NodeProperty)) : List NodeProperty :=
  match r with
  | .ok fs => fs
  | _ => []

/-- Extract the ok property of a field result. -/
def rresPropOf (r : RRes NodeProperty) : NodeProperty :=
  match r with
  | .ok f => f
  | _ => emptyNodeProperty

/-- Extract the ok value of an example-extraction result. -/
def rresJsonOf (r : RRes (Option Json)) : Option Json :=
  match r with
  | .ok v => v
  | _ => none

/-- Extract the ok schema of a resolution result. -/
def rresSchemaOf (r : RRes Schema) : Schema :=
  match r with
  | .ok s => s
  | _ => emptySchema

/-- Extract the ok map of a `ResourceOptionsMap.add` result. -/
def exceptMapOf (e : Except String (List (String × List OptionItem))) :
    List (String × List OptionItem) :=
  match e with
  | .ok m => m
  | _ => []

/-! ### Helper lemmas -/

theorem resolveRef_of_props (c : ApiComponents) (m : Schema) (fuel : Nat)
    (h : (Schema.properties m).isSome) :
    ReferenceResolver.ResolveRef c m (fuel + 1) = .ok (m, none) := by
  unfold ReferenceResolver.ResolveRef
  simp [h]

theorem resolveMembers_of_props (c : ApiComponents) (members : List Schema)
    (hmem : ∀ m ∈ members, (Schema.properties m).isSome) :
    ∀ fuel, members.length + 1 ≤ fuel →
      ReferenceResolver.resolveMembers c members fuel =
        .ok (members.map (fun m => (m, none))) := by
  induction members with
  | nil =>
    intro fuel hf
    match fuel, hf with
    | f + 1, _ =>
      unfold ReferenceResolver.resolveMembers
      rfl
  | cons m rest ih =>
    intro fuel hf
    match fuel, hf with
    | f + 1, hf =>
      have hm : (Schema.properties m).isSome := hmem m (by simp)
      have hf' : rest.length + 1 ≤ f := by simp at hf; omega
      match f, hf' with
      | g + 1, hf' =>
        show (do
          let r ← ReferenceResolver.ResolveRef c m (g + 1)
          let rs ← ReferenceResolver.resolveMembers c rest (g + 1)
          pure (r :: rs)) = RRes.ok ((m :: rest).map (fun x => (x, none)))
        rw [resolveRef_of_props c m g hm]
        rw [ih (fun x hx => hmem x (by simp [hx])) (g + 1) hf']
        rfl

theorem flattenChains_map_none (l : List α) :
    flattenChains (l.map (fun _ => (none : Option RefChain))) =
      l.map (fun _ => (none : Option String)) := by
  induction l with
  | nil => rfl
  | cons a rest ih => simp only [List.map_cons, flattenChains, ih]

theorem foldl_assign_map (members : List Schema) (i : Schema) :
    (members.map (fun m => (m, (none : Option RefChain)))).foldl
        (fun acc r => assignSchema acc r.1) i =
      members.foldl assignSchema i := by
  induction members generalizing i with
  | nil => rfl
  | cons a rest ih => simp only [List.map_cons, List.foldl_cons, ih]

theorem chains_snd_none (members : List Schema) :
    flattenChains ((members.map (fun m => (m, (none : Option RefChain)))).map (fun r => r.2)) =
      members.map (fun _ => none) := by
  induction members with
  | nil => rfl
  | cons a rest ih => simp only [List.map_cons, flattenChains, ih]

/-- Claim C1: resolving an `allOf` whose members each carry inline
`properties` shallow-merges the member schema objects at the top level —
`Object.assign` semantics, so for each top-level key (`properties`
included) the last member carrying that key wins wholesale; the result's
`properties` map equals the last member's, not the union of all
members'. -/
theorem C1_allOf_shallow_merge (components : ApiComponents) (members : List Schema) (fuel : Nat)
    (hmem : ∀ m ∈ members, (Schema.properties m).isSome)
    (hfuel : members.length + 4 ≤ fuel) :
    ReferenceResolver.ResolveRef components (allOfSchema members) fuel =
      .ok (members.foldl assignSchema emptySchema,
        some (members.map (fun _ => none)))
    ∧ ∀ (ms : List Schema) (m : Schema), members = ms ++ [m] →
        Schema.properties (members.foldl assignSchema emptySchema) = Schema.properties m := by
  constructor
  · match fuel, hfuel with
    | f + 1, hfuel =>
      unfold ReferenceResolver.ResolveRef
      simp only [allOfSchema, Schema.properties, Schema.oneOf, Option.isSome_none,
        Bool.false_eq_true, if_false]
      match f, (by omega : members.length + 3 ≤ f) with
      | g + 1, _ =>
        unfold ReferenceResolver.resolveAfterOneOf
        simp only [Schema.anyOf]
        match g, (by omega : members.length + 2 ≤ g) with
        | h + 1, _ =>
          unfold ReferenceResolver.resolveAfterAnyOf
          simp only [Schema.allOf]
          rw [resolveMembers_of_props components members hmem h (by omega)]
          show RRes.ok
              ((members.map (fun m => (m, (none : Option RefChain)))).foldl
                  (fun acc r => assignSchema acc r.1) emptySchema,
                some (flattenChains
                  ((members.map (fun m => (m, (none : Option RefChain)))).map (fun r => r.2)))) = _
          rw [foldl_assign_map, chains_snd_none]
  · intro ms m hm
    subst hm
    rw [List.foldl_append]
    have hlast : (Schema.properties m).isSome := hmem m (by simp)
    obtain ⟨ps, hps⟩ := Option.isSome_iff_exists.mp hlast
    simp only [List.foldl_cons, List.foldl_nil]
    show (Schema.properties m <|> Schema.properties (List.foldl assignSchema emptySchema ms)) =
      Schema.properties m
    rw [hps]
    rfl

/-- Witness for C1 at two concrete members: the merged result's
properties map is the second member's alone. -/
theorem C1_allOf_shallow_merge_witness :
    ReferenceResolver.ResolveRef noSchemas (allOfSchema [memberAB, memberC]) 6 =
      .ok ([memberAB, memberC].foldl assignSchema emptySchema,
        some ([memberAB, memberC].map (fun _ => none)))
    ∧ ∀ (ms : List Schema) (m : Schema), [memberAB, memberC] = ms ++ [m] →
        Schema.properties ([memberAB, memberC].foldl assignSchema emptySchema) =
          Schema.properties m :=
  C1_allOf_shallow_merge noSchemas [memberAB, memberC] 6
    (by intro m hm
        simp only [List.mem_cons, List.not_mem_nil, or_false] at hm
        rcases hm with rfl | rfl <;> rfl)
    (by decide)

/-- Counterexample for C1 as stated: with members declaring properties
{a, b} and {c}, the resolved object's properties map holds only "c" —
key "a" from the earlier member is absent, so the properties map is not
the union of the members' declared properties. -/
theorem C1_counterexample :
    resolvedPropertyKeys (ReferenceResolver.ResolveRef noSchemas
        (allOfSchema [memberAB, memberC]) 6) = ["c"]
    ∧ ¬ ("a" ∈ resolvedPropertyKeys (ReferenceResolver.ResolveRef noSchemas
        (allOfSchema [memberAB, memberC]) 6)) := by
  constructor
  · rfl
  · decide

/-- Claim C3: a `$ref` whose resolution chain consists only of reference
objects looping back (`A = {$ref: B}`, `B = {$ref: A}`) makes `FindRef`
recurse without bound — for every fuel the embedding reports fuel
exhaustion, i.e. the source recursion never returns; the visited-set
guard lives only in the example builder, which does terminate on a cycle
through schema content, yielding the empty object for the cyclic
branch. -/
theorem C3_ref_cycle_behaviour :
    (∀ fuel, ReferenceResolver.FindRef cyclicComponents "#/components/schemas/A" fuel = .fuelOut)
    ∧ SchemaExample.extractExample selfRefComponents (refSchema "#/components/schemas/A") 10 =
        .ok (some (.obj [("self", some (.obj [])), ("name", some (.str "hi"))])) := by
  constructor
  · have key : ∀ fuel,
        ReferenceResolver.FindRef cyclicComponents "#/components/schemas/A" fuel = .fuelOut ∧
        ReferenceResolver.FindRef cyclicComponents "#/components/schemas/B" fuel = .fuelOut := by
      intro fuel
      induction fuel with
      | zero => exact ⟨rfl, rfl⟩
      | succ n ih =>
        refine ⟨?_, ?_⟩
        · rw [show ReferenceResolver.FindRef cyclicComponents "#/components/schemas/A" (n + 1) =
            ReferenceResolver.FindRef cyclicComponents "#/components/schemas/B" n from rfl]
          exact ih.2
        · rw [show ReferenceResolver.FindRef cyclicComponents "#/components/schemas/B" (n + 1) =
            ReferenceResolver.FindRef cyclicComponents "#/components/schemas/A" n from rfl]
          exact ih.1
    exact fun fuel => (key fuel).1
  · rfl

/-- Claim C10: the builder's visited set is shared across all branches of
one top-level extraction and never cleared — any reference whose pointer
is already in the visited set yields the empty object (state unchanged);
concretely, two sibling properties referencing the same schema `X` give
the first the schema's example and the second the empty object. -/
theorem C10_shared_visited_set :
    (∀ (components : ApiComponents) (r : String) (visited : RefChain) (t : Schema) (fuel : Nat),
      some r ∈ visited →
      ReferenceResolver.ResolveRef components (refSchema r) fuel = .ok (t, some [some r]) →
      SchemaExampleBuilder.build components (refSchema r) visited (fuel + 1) =
        .ok (some (.obj []), visited))
    ∧ SchemaExample.extractExample sibComponents siblingSchema 10 =
        .ok (some (.obj [("a", some (.str "hi")), ("b", some (.obj []))])) := by
  constructor
  · intro components r visited t fuel hmem hres
    unfold SchemaExampleBuilder.build
    rw [hres]
    simp [checkVisited, hmem]
  · rfl

/-- Witness for C10: with the pointer already visited, the build of its
reference returns the empty object and leaves the visited set as is. -/
theorem C10_shared_visited_set_witness :
    SchemaExampleBuilder.build sibComponents (refSchema "#/components/schemas/X")
        [some "#/components/schemas/X"] 6 =
      .ok (some (.obj []), [some "#/components/schemas/X"]) :=
  C10_shared_visited_set.1 sibComponents "#/components/schemas/X"
    [some "#/components/schemas/X"] hiSchema 5 (by decide) (by rfl)

/-- Claim C5 (amended): `MergeProperties(parameterFieldConfig,
schemaFieldConfig)` applies `lodash.defaults` with the parameter-level
config as the first source, so for every key both sources define the
*parameter-level* value wins and the schema-derived value fills only the
gaps; in particular the parameter's own `example` suppresses a
schema-derived default. -/
theorem C5_parameter_level_wins (components : ApiComponents) (p : Param) (nm : String)
    (sch : Schema) (cfg : NodeProperty) (fuel : Nat)
    (hname : p.name = some nm) (hnm : nm ≠ "")
    (hsch : p.schema = some sch)
    (hcfg : PropertyMapper.MapFromSchema components sch fuel = .ok cfg)
    (hloc : p.location = "query") :
    PropertyMapper.MapFromParameter components p fuel =
      .ok { displayName := some (startCase nm),
            name := some (encodeURIComponent (strReplaceDots nm)),
            type := cfg.type,
            default := p.exampleValue <|> cfg.default,
            description := p.description <|> cfg.description,
            required := if (p.required <|> cfg.required) = some true then some true else none,
            options := cfg.options,
            routing := some (.send "query" nm passthroughExpr false),
            displayOptions := cfg.displayOptions,
            noDataExpression := cfg.noDataExpression,
            typeOptions := cfg.typeOptions } := by
  unfold PropertyMapper.MapFromParameter
  rw [hname]
  simp only [hnm, if_false, hsch, hcfg]
  simp only [bind, RRes.bind, pure]
  simp only [MergeProperties, defaultsMerge, emptyNodeProperty, List.foldl_cons, List.foldl_nil]
  unfold PropertyMapper.SetParameterRouting
  rw [hloc]
  simp only [bind, RRes.bind]
  cases hr : p.required with
  | none =>
    cases hcr : cfg.required with
    | none => simp
    | some b => cases b <;> simp
  | some b =>
    cases b
    · cases hcr : cfg.required with
      | none => simp
      | some b2 => cases b2 <;> simp
    · simp

/-- Witness for C5 at the concrete parameter: its own example "px" and
schema default "sd" merge to "px". -/
theorem C5_parameter_level_wins_witness :
    PropertyMapper.MapFromParameter noSchemas paramWithExample 20 =
      .ok { displayName := some (startCase "p"),
            name := some (encodeURIComponent (strReplaceDots "p")),
            type := (rresPropOf (PropertyMapper.MapFromSchema noSchemas schemaWithDefault 20)).type,
            default := paramWithExample.exampleValue <|>
              (rresPropOf (PropertyMapper.MapFromSchema noSchemas schemaWithDefault 20)).default,
            description := paramWithExample.description <|>
              (rresPropOf (PropertyMapper.MapFromSchema noSchemas schemaWithDefault 20)).description,
            required := if (paramWithExample.required <|>
              (rresPropOf (PropertyMapper.MapFromSchema noSchemas schemaWithDefault 20)).required) =
                some true then some true else none,
            options := (rresPropOf (PropertyMapper.MapFromSchema noSchemas schemaWithDefault 20)).options,
            routing := some (.send "query" "p" passthroughExpr false),
            displayOptions :=
              (rresPropOf (PropertyMapper.MapFromSchema noSchemas schemaWithDefault 20)).displayOptions,
            noDataExpression :=
              (rresPropOf (PropertyMapper.MapFromSchema noSchemas schemaWithDefault 20)).noDataExpression,
            typeOptions :=
              (rresPropOf (PropertyMapper.MapFromSchema noSchemas schemaWithDefault 20)).typeOptions } :=
  C5_parameter_level_wins noSchemas paramWithExample "p" schemaWithDefault
    (rresPropOf (PropertyMapper.MapFromSchema noSchemas schemaWithDefault 20)) 20
    rfl (by decide) rfl rfl rfl

/-- Counterexample for C5 as stated: the parameter's own example "px"
wins over the schema-derived default "sd" — the schema-derived value is
not kept when the parameter-level value is present. -/
theorem C5_counterexample :
    rresDefaultString (PropertyMapper.MapFromParameter noSchemas paramWithExample 20) = some "px"
    ∧ ¬ (rresDefaultString (PropertyMapper.MapFromParameter noSchemas paramWithExample 20) =
        some "sd") := by
  constructor
  · rfl
  · decide

/-- Claim C7 (amended): for a resolved schema with a non-empty `enum`,
the mapped field has type "options" and exactly one option per enum
value in original order (label `startCase`d, value raw); the default is
the pre-enum default (explicit example, else explicit default, else the
per-type structural default) when that value is JS-truthy, and the first
enum value otherwise — `field.default || enum[0]` — so a falsy explicit
example or default (such as "") is overridden by the first enum value. -/
theorem C7_enum_mapping (components : ApiComponents) (s rs : Schema) (ex : Option Json)
    (v : String) (vs : List String) (fuel : Nat)
    (hres : ReferenceResolver.Resolve components s fuel = .ok rs)
    (hex : SchemaExample.extractExample components rs fuel = .ok ex)
    (henum : Schema.enum rs = some (v :: vs)) :
    PropertyMapper.MapFromSchema components s fuel =
      .ok { emptyNodeProperty with
        type := some "options",
        description := Schema.description rs,
        options := some ((v :: vs).map enumOption),
        default :=
          (let pre := stringifyIfObject (match ex with
            | some e => some e
            | none => PropertyMapper.GetDefaultValues rs (jsOrString (Schema.type rs) "string"));
          if jsTruthyJson pre then pre else some (.str v)) }
    ∧ ((v :: vs).map enumOption).map (fun o => o.value) = v :: vs := by
  constructor
  · unfold PropertyMapper.MapFromSchema
    rw [hres]
    cases ex with
    | none => simp only [bind, RRes.bind, hex, henum, pure]
    | some e => simp only [bind, RRes.bind, hex, henum, pure]
  · have : ((fun o => OptionItem.value o) ∘ enumOption) = fun e => e := by
      funext e
      rfl
    simp [List.map_map, this]
    rfl

/-- Witness for C7 at `{type: "string", enum: ["type1","type2"]}`: type
"options", options [("Type 1","type1"),("Type 2","type2")], default the
first enum value. -/
theorem C7_enum_mapping_witness :
    rresDefaultString (PropertyMapper.MapFromSchema noSchemas enumPlainSchema 20) = some "type1"
    ∧ rresOptionPairs (PropertyMapper.MapFromSchema noSchemas enumPlainSchema 20) =
        [("Type 1", "type1"), ("Type 2", "type2")] := by
  have h := (C7_enum_mapping noSchemas enumPlainSchema
    (rresSchemaOf (ReferenceResolver.Resolve noSchemas enumPlainSchema 20))
    (rresJsonOf (SchemaExample.extractExample noSchemas
      (rresSchemaOf (ReferenceResolver.Resolve noSchemas enumPlainSchema 20)) 20))
    "type1" ["type2"] 20 rfl rfl rfl).1
  rw [show rresDefaultString (PropertyMapper.MapFromSchema noSchemas enumPlainSchema 20) =
      some "type1" from by rw [h]; rfl]
  rw [show rresOptionPairs (PropertyMapper.MapFromSchema noSchemas enumPlainSchema 20) =
      [("Type 1", "type1"), ("Type 2", "type2")] from by rw [h]; rfl]
  exact ⟨rfl, rfl⟩

/-- Counterexample for C7 as stated: the schema declares the explicit
(falsy) example "", yet the mapped default is the first enum value "a",
not the example — a falsy explicit example does not override. -/
theorem C7_counterexample :
    Schema.exampleValue enumFalsySchema = some (.str "")
    ∧ rresDefaultString (PropertyMapper.MapFromSchema noSchemas enumFalsySchema 20) = some "a"
    ∧ ¬ (rresDefaultString (PropertyMapper.MapFromSchema noSchemas enumFalsySchema 20) = some "")
    ∧ rresOptionPairs (PropertyMapper.MapFromSchema noSchemas enumFalsySchema 20) =
        [("A", "a"), ("B", "b")] := by
  refine ⟨rfl, rfl, ?_, rfl⟩
  decide

theorem lookupStr_setStr (l : List (String × α)) (k : String) (v : α) :
    lookupStr (setStr l k v) k = some v := by
  induction l with
  | nil => simp [setStr, lookupStr]
  | cons p rest ih =>
    obtain ⟨k', v'⟩ := p
    by_cases h : k' = k
    · simp [setStr, lookupStr, h]
    · simp [setStr, lookupStr, h, ih]

theorem resourceOptionsAdd_mem (m : List (String × List OptionItem)) (r : String)
    (o : OptionItem) (m' : List (String × List OptionItem))
    (h : ResourceOptionsMap.add m r o = .ok m') :
    ∃ opts, lookupStr m' r = some opts ∧ o ∈ opts := by
  unfold ResourceOptionsMap.add at h
  by_cases hd : ((lookupStr (if (lookupStr m r).isSome then m else m ++ [(r, [])]) r).getD []).any
      (fun x => x.value = o.value)
  · simp only [hd, if_true] at h
    cases h
  · simp only [hd, Bool.false_eq_true, if_false, Except.ok.injEq] at h
    subst h
    exact ⟨_ ++ [o], lookupStr_setStr _ _ _, by simp⟩

/-- The computation of one `VisitOperationInternal` call on a single-tag
operation whose parsing succeeds and whose option registers without a
duplicate: the option is registered under the tag's resource value and
the fields are appended scoped to (resource value, option name). -/
theorem visitInternal_single_tag (components : ApiComponents) (pO : IOperationParser)
    (pR : IResourceParser) (op : Operation) (ctx : OperationContext) (fuel : Nat)
    (st : CollectorState) (opt : OptionItem) (fs : List NodeProperty) (t r : String)
    (m' : List (String × List OptionItem))
    (hskip : pO.ShouldSkip op ctx = false)
    (hpo : BaseOperationCollector.ParseOperation components pO op ctx fuel = .ok (opt, fs))
    (htags : op.tags = some [t])
    (hr : pR.GetValue t = r) (hrne : ¬ (r = ""))
    (hadd : ResourceOptionsMap.add st.resourceOptions r opt = .ok m') :
    BaseOperationCollector.VisitOperationInternal components pO pR op ctx fuel st =
      .ok ⟨st.collectedFields ++ BaseOperationCollector.AddDisplayOption fs r opt.name, m'⟩ := by
  unfold BaseOperationCollector.VisitOperationInternal
  rw [hskip]
  simp only [Bool.false_eq_true, if_false]
  rw [hpo, htags]
  simp only [List.map_cons, List.map_nil, hr, List.filter_cons, List.filter_nil, hrne,
    decide_False, decide_not, Bool.not_false, if_true]
  unfold BaseOperationCollector.registerResources
  rw [hadd]
  unfold BaseOperationCollector.registerResources
  rfl

/-- Claim C2 (amended): every field emitted for a (resource, operation)
registration carries the show condition (resource value, option *name*)
— `VisitOperationInternal` passes `option.name`, not the option's
registered `value`, as the operation component, so the condition matches
the selector's stored value only when the operation parser derives equal
name and value. -/
theorem C2_condition_scopes_to_option_name (components : ApiComponents)
    (pO : IOperationParser) (pR : IResourceParser) (op : Operation) (ctx : OperationContext)
    (fuel : Nat) (st : CollectorState) (opt : OptionItem) (fs : List NodeProperty)
    (t r : String) (m' : List (String × List OptionItem))
    (hskip : pO.ShouldSkip op ctx = false)
    (hpo : BaseOperationCollector.ParseOperation components pO op ctx fuel = .ok (opt, fs))
    (htags : op.tags = some [t])
    (hr : pR.GetValue t = r) (hrne : ¬ (r = ""))
    (hadd : ResourceOptionsMap.add st.resourceOptions r opt = .ok m') :
    BaseOperationCollector.VisitOperationInternal components pO pR op ctx fuel st =
      .ok ⟨st.collectedFields ++ BaseOperationCollector.AddDisplayOption fs r opt.name, m'⟩
    ∧ ∀ f ∈ BaseOperationCollector.AddDisplayOption fs r opt.name,
        f.displayOptions = some ⟨[r], some [opt.name]⟩ := by
  refine ⟨visitInternal_single_tag components pO pR op ctx fuel st opt fs t r m'
    hskip hpo htags hr hrne hadd, ?_⟩
  intro f hf
  simp only [BaseOperationCollector.AddDisplayOption, List.mem_map] at hf
  obtain ⟨g, _, rfl⟩ := hf
  rfl

/-- Witness for C2 (amended) at the concrete operation without an
operationId: the registration computes as the theorem states. -/
theorem C2_condition_scopes_to_option_name_witness :
    BaseOperationCollector.VisitOperationInternal noSchemas defaultOperationParser
        defaultResourceParser opQueryNoId ctxItems 30 emptyCollectorState =
      .ok ⟨emptyCollectorState.collectedFields ++
        BaseOperationCollector.AddDisplayOption
          (rresFieldsOf (BaseOperationCollector.ParseFields noSchemas opQueryNoId ctxItems 30))
          "Pets" (BaseOperationCollector.operationOption defaultOperationParser opQueryNoId ctxItems).name,
        exceptMapOf (ResourceOptionsMap.add emptyCollectorState.resourceOptions "Pets"
          (BaseOperationCollector.operationOption defaultOperationParser opQueryNoId ctxItems))⟩
    ∧ ∀ f ∈ BaseOperationCollector.AddDisplayOption
        (rresFieldsOf (BaseOperationCollector.ParseFields noSchemas opQueryNoId ctxItems 30))
        "Pets" (BaseOperationCollector.operationOption defaultOperationParser opQueryNoId ctxItems).name,
        f.displayOptions = some ⟨["Pets"],
          some [(BaseOperationCollector.operationOption defaultOperationParser opQueryNoId ctxItems).name]⟩ :=
  C2_condition_scopes_to_option_name noSchemas defaultOperationParser defaultResourceParser
    opQueryNoId ctxItems 30 emptyCollectorState
    (BaseOperationCollector.operationOption defaultOperationParser opQueryNoId ctxItems)
    (rresFieldsOf (BaseOperationCollector.ParseFields noSchemas opQueryNoId ctxItems 30))
    "Pets" "Pets"
    (exceptMapOf (ResourceOptionsMap.add emptyCollectorState.resourceOptions "Pets"
      (BaseOperationCollector.operationOption defaultOperationParser opQueryNoId ctxItems)))
    rfl rfl rfl rfl (by decide) rfl

/-- Counterexample for C2 as stated: with the default parser and an
operation without an operationId, the registered option's value is
"GET -api-items" while every emitted field's show condition lists the
operation as "GET /api/items" (the option's name) — the condition does
not equal the stored operation value. -/
theorem C2_counterexample :
    vresOptionValues (BaseOperationCollector.VisitOperationInternal noSchemas
        defaultOperationParser defaultResourceParser opQueryNoId ctxItems 30
        emptyCollectorState) "Pets" = ["GET -api-items"]
    ∧ vresFieldOperationConds (BaseOperationCollector.VisitOperationInternal noSchemas
        defaultOperationParser defaultResourceParser opQueryNoId ctxItems 30
        emptyCollectorState) = [["GET /api/items"]]
    ∧ ("GET -api-items" : String) ≠ "GET /api/items" := by
  refine ⟨rfl, rfl, by decide⟩

/-- Claim C8 (amended): an error raised while parsing the operation
(before any registration, e.g. a malformed parameter) is caught by the
per-operation boundary: a warning is logged and the accumulated state is
returned exactly unchanged, and the walk continues. (An error raised
part-way through the per-resource registration loop, such as a duplicate
operation value under a later target resource, is also caught but keeps
the registrations already made — see the counterexample.) -/
theorem C8_parse_error_preserves_state (components : ApiComponents) (pO : IOperationParser)
    (pR : IResourceParser) (op : Operation) (ctx : OperationContext) (fuel : Nat)
    (st : CollectorState) (e : String)
    (hskip : pO.ShouldSkip op ctx = false)
    (hpo : BaseOperationCollector.ParseOperation components pO op ctx fuel = .err e) :
    BaseOperationCollector.VisitOperation components pO pR op ctx fuel st = .ok (st, true) := by
  unfold BaseOperationCollector.VisitOperation BaseOperationCollector.VisitOperationInternal
  rw [hskip]
  simp [hpo]

/-- Witness for C8 (amended): an operation whose only parameter has no
name is caught, warned about, and leaves the empty state unchanged. -/
theorem C8_parse_error_preserves_state_witness :
    BaseOperationCollector.VisitOperation noSchemas defaultOperationParser
        defaultResourceParser opBadParam ctxItems 9 emptyCollectorState =
      .ok (emptyCollectorState, true) :=
  C8_parse_error_preserves_state noSchemas defaultOperationParser defaultResourceParser
    opBadParam ctxItems 9 emptyCollectorState "Parameter name is required" rfl rfl

/-- Counterexample for C8 as stated: the operation tagged ["A", "A"]
fails on the second registration (duplicate operation value), the error
is caught and a warning logged — but the first iteration's selector
option and cloned fields remain in the accumulated state, so the state
is not "exactly as it was before visiting". -/
theorem C8_counterexample :
    visitWarned (BaseOperationCollector.VisitOperation noSchemas defaultOperationParser
        defaultResourceParser opDupTags ctxItems 30 emptyCollectorState) = true
    ∧ visitFieldCount (BaseOperationCollector.VisitOperation noSchemas defaultOperationParser
        defaultResourceParser opDupTags ctxItems 30 emptyCollectorState) = 1
    ∧ visitOptionCount (BaseOperationCollector.VisitOperation noSchemas defaultOperationParser
        defaultResourceParser opDupTags ctxItems 30 emptyCollectorState) "A" = 1 := by
  refine ⟨rfl, rfl, rfl⟩

/-- Claim C9: an operation whose request-body mapping throws still
produces all its parameter-derived fields plus exactly one "notice"
field, still registers its selector option under its resource, and the
visit returns normally (the build does not fail). -/
theorem C9_body_failure_recovered_with_notice (components : ApiComponents)
    (pO : IOperationParser) (pR : IResourceParser) (op : Operation) (ctx : OperationContext)
    (fuel : Nat) (st : CollectorState) (ps : List NodeProperty) (e : String)
    (t r : String) (m' : List (String × List OptionItem))
    (hskip : pO.ShouldSkip op ctx = false)
    (hp : PropertyMapper.MapFromParameters components op.parameters fuel = .ok ps)
    (hb : PropertyMapper.MapFromRequestBody components op.requestBody fuel = .err e)
    (htags : op.tags = some [t])
    (hr : pR.GetValue t = r) (hrne : ¬ (r = ""))
    (hadd : ResourceOptionsMap.add st.resourceOptions r
      (BaseOperationCollector.operationOption pO op ctx) = .ok m') :
    BaseOperationCollector.ParseFields components op ctx fuel =
      .ok (ps ++ [requestBodyNotice ctx])
    ∧ (requestBodyNotice ctx).type = some "notice"
    ∧ BaseOperationCollector.VisitOperationInternal components pO pR op ctx fuel st =
        .ok ⟨st.collectedFields ++
          BaseOperationCollector.AddDisplayOption (ps ++ [requestBodyNotice ctx]) r
            (BaseOperationCollector.operationOption pO op ctx).name, m'⟩
    ∧ ∃ opts, lookupStr m' r = some opts ∧
        BaseOperationCollector.operationOption pO op ctx ∈ opts := by
  have hpf : BaseOperationCollector.ParseFields components op ctx fuel =
      .ok (ps ++ [requestBodyNotice ctx]) := by
    unfold BaseOperationCollector.ParseFields
    rw [hp]
    simp only [bind, RRes.bind]
    rw [hb]
    rfl
  have hpo : BaseOperationCollector.ParseOperation components pO op ctx fuel =
      .ok (BaseOperationCollector.operationOption pO op ctx, ps ++ [requestBodyNotice ctx]) := by
    unfold BaseOperationCollector.ParseOperation
    rw [hpf]
    rfl
  exact ⟨hpf, rfl,
    visitInternal_single_tag components pO pR op ctx fuel st _ _ t r m'
      hskip hpo htags hr hrne hadd,
    resourceOptionsAdd_mem st.resourceOptions r _ m' hadd⟩

/-- Witness for C9 at the operation with body `{type: "string"}`: its
parameter field survives, one notice field is added, its option
registers. -/
theorem C9_body_failure_recovered_with_notice_witness :
    BaseOperationCollector.ParseFields noSchemas opStringBody ctxItems 30 =
      .ok (rresFieldsOf (PropertyMapper.MapFromParameters noSchemas opStringBody.parameters 30) ++
        [requestBodyNotice ctxItems])
    ∧ (requestBodyNotice ctxItems).type = some "notice"
    ∧ BaseOperationCollector.VisitOperationInternal noSchemas defaultOperationParser
        defaultResourceParser opStringBody ctxItems 30 emptyCollectorState =
        .ok ⟨emptyCollectorState.collectedFields ++
          BaseOperationCollector.AddDisplayOption
            (rresFieldsOf (PropertyMapper.MapFromParameters noSchemas opStringBody.parameters 30) ++
              [requestBodyNotice ctxItems]) "Pets"
            (BaseOperationCollector.operationOption defaultOperationParser opStringBody ctxItems).name,
          exceptMapOf (ResourceOptionsMap.add emptyCollectorState.resourceOptions "Pets"
            (BaseOperationCollector.operationOption defaultOperationParser opStringBody ctxItems))⟩
    ∧ ∃ opts, lookupStr (exceptMapOf (ResourceOptionsMap.add emptyCollectorState.resourceOptions
          "Pets" (BaseOperationCollector.operationOption defaultOperationParser opStringBody ctxItems)))
        "Pets" = some opts ∧
        BaseOperationCollector.operationOption defaultOperationParser opStringBody ctxItems ∈ opts :=
  C9_body_failure_recovered_with_notice noSchemas defaultOperationParser defaultResourceParser
    opStringBody ctxItems 30 emptyCollectorState
    (rresFieldsOf (PropertyMapper.MapFromParameters noSchemas opStringBody.parameters 30))
    "Request body schema type \x27string\x27 not supported" "Pets" "Pets"
    (exceptMapOf (ResourceOptionsMap.add emptyCollectorState.resourceOptions "Pets"
      (BaseOperationCollector.operationOption defaultOperationParser opStringBody ctxItems)))
    rfl rfl rfl rfl rfl (by decide) rfl

/-- Claim C6 (amended): the selector orders collected tags by their
recorded declaration order, with tags that have no recorded order (those
only inferred from operations) carrying sort key 0 — they therefore sort
*before* every explicitly declared tag of positive declaration index,
not after all explicit ones; only tags with key 0 can precede an
inferred tag. The tag literally named "default" is moved to the end
unless it was itself explicitly declared. -/
theorem C6_sortedTags_order (st : ResourceCollectorState) :
    List.Sorted (tagOrderLe st) (List.insertionSort (tagOrderLe st) st.tags)
    ∧ List.Perm (List.insertionSort (tagOrderLe st) st.tags) st.tags
    ∧ (∀ (x : String × String) (l1 l2 : List (String × String)),
        List.insertionSort (tagOrderLe st) st.tags = l1 ++ x :: l2 →
        lookupStr st.tagsOrder x.1 = none →
        ∀ y ∈ l1, tagOrderKey st y = 0)
    ∧ (∀ d : String × String, lookupStr st.tagsOrder "default" = none →
        (List.insertionSort (tagOrderLe st) st.tags).find? (fun p => p.1 = "default") = some d →
        ∃ pre, ResourceCollector.sortedTags st = pre ++ [d]) := by
  refine ⟨List.sorted_insertionSort (tagOrderLe st) st.tags,
    List.perm_insertionSort (tagOrderLe st) st.tags, ?_, ?_⟩
  · intro x l1 l2 heq hx y hy
    have hs := List.sorted_insertionSort (tagOrderLe st) st.tags
    rw [heq] at hs
    have h3 := (List.pairwise_append.mp hs).2.2 y hy x (by simp)
    unfold tagOrderLe at h3
    unfold tagOrderKey at h3 ⊢
    rw [hx] at h3
    simp at h3
    omega
  · intro d hno hfind
    unfold ResourceCollector.sortedTags moveDefaultToEnd
    rw [hno]
    simp only [Option.isSome_none, Bool.false_eq_true, if_false]
    rw [hfind]
    exact ⟨_, rfl⟩

/-- Witness for C6 (amended) at a state with an undeclared "default"
tag: it is moved to the end of the sorted list. -/
theorem C6_sortedTags_order_witness :
    ∃ pre, ResourceCollector.sortedTags resourceStateWithDefault = pre ++ [("default", "")] :=
  (C6_sortedTags_order resourceStateWithDefault).2.2.2 ("default", "") rfl rfl

/-- Counterexample for C6 as stated: tag "Z" is only inferred from an
operation (no recorded order) while "A" and "B" are explicitly declared
(orders 0 and 1); the selector lists Z first, not after the explicitly
declared tags. -/
theorem C6_counterexample :
    (ResourceCollector.sortedTags resourceStateZAB).map Prod.fst = ["Z", "A", "B"]
    ∧ lookupStr resourceStateZAB.tagsOrder "Z" = none
    ∧ lookupStr resourceStateZAB.tagsOrder "A" = some 0
    ∧ lookupStr resourceStateZAB.tagsOrder "B" = some 1
    ∧ (["Z", "A", "B"] : List String) ≠ ["A", "B", "Z"] := by
  refine ⟨rfl, rfl, rfl, rfl, by decide⟩

theorem mapSelf (l : List α) (f : α → α) (h : ∀ x ∈ l, f x = x) : l.map f = l := by
  induction l with
  | nil => rfl
  | cons a t ih =>
    rw [List.map_cons, h a (by simp), ih (fun x hx => h x (by simp [hx]))]

theorem defaultOperationTags_of_some (m : String) (op : Operation)
    (h : (Operation.tags op).isSome) :
    OpenApiParser.defaultOperationTags m op = op := by
  obtain ⟨l, hl⟩ := Option.isSome_iff_exists.mp h
  cases op
  simp_all [OpenApiParser.defaultOperationTags]

/-- Claim C4 (amended): the walker's only write to the caller's document
is the in-place `tags ??= ["default"]` defaulting on operations that
lack a tag list; on a document in which every operation carries a tag
list, `Build`'s two traversals leave the document unchanged. -/
theorem C4_build_preserves_tagged_documents (doc : ApiDocument)
    (h : ∀ pe ∈ doc.paths, ∀ mo ∈ pe.2, (Operation.tags mo.2).isSome) :
    PropertiesBuilder.BuildDocumentEffect doc = doc := by
  have hp : OpenApiParser.ParsePaths doc = doc := by
    unfold OpenApiParser.ParsePaths
    have hmap : doc.paths.map (fun pe =>
        (pe.1, pe.2.map (fun mo => (mo.1, OpenApiParser.defaultOperationTags mo.1 mo.2)))) =
        doc.paths := by
      apply mapSelf
      intro pe hpe
      have h2 : pe.2.map (fun mo => (mo.1, OpenApiParser.defaultOperationTags mo.1 mo.2)) =
          pe.2 := by
        apply mapSelf
        intro mo hmo
        rw [defaultOperationTags_of_some mo.1 mo.2 (h pe hpe mo hmo)]
      rw [h2]
    rw [hmap]
  unfold PropertiesBuilder.BuildDocumentEffect
  rw [hp, hp]

/-- Witness for C4 (amended): the single-operation tagged document is
untouched by the build. -/
theorem C4_build_preserves_tagged_documents_witness :
    PropertiesBuilder.BuildDocumentEffect docTagged = docTagged :=
  C4_build_preserves_tagged_documents docTagged
    (by intro pe hpe mo hmo
        simp only [docTagged, List.mem_singleton] at hpe
        subst hpe
        simp only [List.mem_singleton] at hmo
        subst hmo
        rfl)

/-- Counterexample for C4 as stated: running the build on a document
whose operation has no `tags` key assigns `tags = ["default"]` in place —
the caller's document is mutated. -/
theorem C4_counterexample :
    firstOperationTags (PropertiesBuilder.BuildDocumentEffect docTagless) = some ["default"]
    ∧ firstOperationTags docTagless = none :=
  ⟨rfl, rfl⟩
